import Mathlib

/-!
Shallow embedding of the Zephyr Hearing Access Service (HAS) server
(`subsys/bluetooth/audio/has.c`, provided as `src/unnamed/part_001`, with its
headers in `src/unnamed/part_000` and `has_internal.h`).

The embedding models the preset store (the fixed `preset_list` array), the
per-client session table (`client_list`), the Control-Point request handlers
and the preset-changed coalescing logic.  Machine integers (`uint8_t`) are
modelled as `Nat`, with an explicit `% 256` at the call sites where C performs
an implicit conversion of an `int` expression back to `uint8_t`
(`has_local.active_id + 1` / `- 1` in `handle_set_next_preset` /
`handle_set_prev_preset`).  Atomic bitsets (`ATOMIC_DEFINE`) are modelled as
`Finset Nat` of the set bit positions.  GATT, the kernel work queue and the
application callback `active_set` are external collaborators: a scheduled work
item is recorded as a flag/delay in the state, and a dispatched frame is
recorded as a value rather than transmitted.
-/

namespace HAS

/-- The four Preset Changed `change_id` values used by `preset_changed`
(`BT_HAS_CHANGE_ID_GENERIC_UPDATE` / `_PRESET_DELETED` / `_PRESET_AVAILABLE` /
`_PRESET_UNAVAILABLE`). -/
inductive ChangeId
  | genericUpdate
  | deleted
  | available
  | unavailable
deriving DecidableEq, Repr, Inhabited

/-- ATT / HAS application error codes returned through `BT_GATT_ERR(...)` by
the server handlers (`BT_HAS_ERR_*` are 0x80..0x84 in `has_internal.h`, the
`BT_ATT_ERR_*` values come from the host headers). -/
inductive AttErr
  | invalidOp
  | writeNameNotAllowed
  | presetSyncNotSupp
  | operationNotPossible
  | invalidParamLen
  | outOfRange
  | cccImproperConf
  | insufficientResources
  | invalidOffset
  | invalidAttributeLen
  | unlikely
deriving DecidableEq, Repr

/-- `BT_HAS_PROP_WRITABLE = BIT(0)`. -/
def PROP_WRITABLE : Nat := 1

/-- `BT_HAS_PROP_AVAILABLE = BIT(1)`. -/
def PROP_AVAILABLE : Nat := 2

/-- `BT_HAS_PRESET_NAME_MIN`. -/
def PRESET_NAME_MIN : Nat := 1

/-- `BT_HAS_PRESET_NAME_MAX`. -/
def PRESET_NAME_MAX : Nat := 40

/-- `BT_HAS_PRESET_INDEX_NONE 0x00`. -/
def PRESET_INDEX_NONE : Nat := 0

/-- `CP_WORK_TIMEOUT K_MSEC(10)`, in milliseconds. -/
def CP_WORK_TIMEOUT : Nat := 10

/-- One entry of the server's `preset_list` array (`struct preset`):
id, properties bitmask, name bytes, soft-delete flag, and the
`is_client_name_aware` per-client bitset. -/
structure Preset where
  id : Nat
  properties : Nat
  name : List Nat
  hidden : Bool
  nameAware : Finset Nat
deriving DecidableEq

/-- A zero-initialised `struct preset` slot (the static array is zeroed, and
slots beyond the registered presets stay in this state). -/
def zeroPreset : Preset :=
  { id := 0, properties := 0, name := [], hidden := false, nameAware := ∅ }

instance : Inhabited Preset := ⟨zeroPreset⟩

/-- One entry of `client_list` (`struct client`): the owning connection
reference (`conn`, and whether `conn->state == BT_CONN_CONNECTED`), the
`CLIENT_FLAG_*` bits, the `preset_changed` coalescing queue (pending bitset
plus the parallel `change_id` array) and the `read_preset_rsp` state.
`scheduled = some d` records that `cp_tx_work` is armed with delay `d` ms. -/
structure Client where
  conn : Option Nat
  connected : Bool
  encrypted : Bool
  attMtuValid : Bool
  indEnabled : Bool
  nfyEnabled : Bool
  busy : Bool
  scheduled : Option Nat
  pending : Finset Nat
  changeId : List ChangeId
  readPending : Option Nat
  readNum : Nat
deriving DecidableEq

/-- A zero-initialised `struct client` slot (result of `memset` in
`client_free`). -/
def zeroClient : Client :=
  { conn := none, connected := false, encrypted := false, attMtuValid := false,
    indEnabled := false, nfyEnabled := false, busy := false, scheduled := none,
    pending := ∅, changeId := [], readPending := none, readNum := 0 }

instance : Inhabited Client := ⟨zeroClient⟩

/-- The whole server-side state: the `preset_list` array, `last_preset_id`,
`has_local` (features and active id) and the `client_list` array. -/
structure ServerState where
  presets : List Preset
  lastPresetId : Nat
  features : Nat
  activeId : Nat
  clients : List Client
deriving DecidableEq

/-- `find_visible` callback: matches a preset that is not hidden. -/
def find_visible (p : Preset) : Bool := !p.hidden

/-- `find_available` callback: matches a preset that has
`BT_HAS_PROP_AVAILABLE` set and is not hidden. -/
def find_available (p : Preset) : Bool :=
  decide (p.properties &&& PROP_AVAILABLE ≠ 0) && !p.hidden

/-- Inner loop of `preset_foreach`, specialised to the way every caller in
`has.c` uses it (`num_matches = 1` with a callback that stores the first
match): walks the array in order, skips entries with `id < start_index`,
aborts at the first entry with `id > end_index`, and returns the first entry
matching the predicate together with its array position. -/
def preset_find_go (s e : Nat) (pred : Preset → Bool) : List Preset → Option (Nat × Preset)
  | [] => none
  | p :: rest =>
    if p.id < s then (preset_find_go s e pred rest).map (fun q => (q.1 + 1, q.2))
    else if e < p.id then none
    else if pred p then some (0, p)
    else (preset_find_go s e pred rest).map (fun q => (q.1 + 1, q.2))

/-- `preset_foreach(start_index, end_index, 1, func, &found)`: the outer guard
`start_index <= last_preset_id` followed by the array walk. -/
def preset_foreach_find (presets : List Preset) (lastId s e : Nat)
    (pred : Preset → Bool) : Option (Nat × Preset) :=
  if s ≤ lastId then preset_find_go s e pred presets else none

/-- `preset_get(id)`: linear scan of the whole array for an entry with the
given id (hidden presets and zeroed slots included). Returns the array
position together with the entry. -/
def preset_get_go (id : Nat) : List Preset → Option (Nat × Preset)
  | [] => none
  | p :: rest =>
    if p.id = id then some (0, p)
    else (preset_get_go id rest).map (fun q => (q.1 + 1, q.2))

/-- `preset_get(id)` over the server state. -/
def preset_get (presets : List Preset) (id : Nat) : Option (Nat × Preset) :=
  preset_get_go id presets

/-- `is_read_preset_rsp_pending`. -/
def is_read_preset_rsp_pending (c : Client) : Bool :=
  c.readPending.isSome && decide (0 < c.readNum)

/-- `is_preset_changed_pending` (`preset_changed_popcount > 0`). -/
def is_preset_changed_pending (c : Client) : Bool :=
  decide c.pending.Nonempty

/-- `control_point_tx_work_submit(client, delay)`: if `CP_BUSY` was clear, set
it and (re)arm `cp_tx_work` with the given delay. -/
def control_point_tx_work_submit (c : Client) (delay : Nat) : Client :=
  if c.busy then c else { c with busy := true, scheduled := some delay }

/-- `preset_changed_set(client, index, change_id)`. -/
def preset_changed_set (c : Client) (index : Nat) (cid : ChangeId) : Client :=
  { c with changeId := c.changeId.set index cid, pending := insert index c.pending }

/-- `preset_changed_clear(client, index)`. -/
def preset_changed_clear (c : Client) (index : Nat) : Client :=
  { c with pending := c.pending.erase index }

/-- The conflict-resolution kernel of `preset_changed` (the
`if (atomic_test_bit(pending, index))` block, lines 599-642): given whether a
change is already pending, the pending change id, whether this client is
name-aware of the preset, and the new change id, returns the client's updated
coalescing entry for this preset. -/
def preset_changed_update (c : Client) (index : Nat) (aware : Bool)
    (cid : ChangeId) : Client :=
  if index ∈ c.pending then
    let pendingId := c.changeId.getD index ChangeId.genericUpdate
    match cid with
    | ChangeId.genericUpdate =>
      if pendingId = ChangeId.deleted ∧ aware = true then preset_changed_clear c index
      else preset_changed_set c index cid
    | ChangeId.deleted =>
      if pendingId = ChangeId.genericUpdate ∧ aware = true then preset_changed_clear c index
      else preset_changed_set c index cid
    | ChangeId.available =>
      if pendingId = ChangeId.unavailable then preset_changed_clear c index
      else c
    | ChangeId.unavailable =>
      if pendingId = ChangeId.available then preset_changed_clear c index
      else c
  else preset_changed_set c index cid

/-- Per-client body of the `preset_changed` loop: skip clients not subscribed
to either indications or notifications, skip clients without a connected
connection, apply the coalescing kernel, then either arm the transmit work
(something pending) or cancel it and clear `CP_BUSY`. `i` is the client's
index (its position in `client_list`, used for the name-awareness bit). -/
def preset_changed_client (preset : Preset) (index : Nat) (cid : ChangeId)
    (i : Nat) (c : Client) : Client :=
  if !c.indEnabled && !c.nfyEnabled then c
  else if !(c.conn.isSome && c.connected) then c
  else
    let c1 := preset_changed_update c index (decide (i ∈ preset.nameAware)) cid
    if is_preset_changed_pending c1 then control_point_tx_work_submit c1 CP_WORK_TIMEOUT
    else { c1 with scheduled := none, busy := false }

/-- `preset_changed(preset, change_id)`: update every client's coalescing
queue for the preset at array position `index`. -/
def preset_changed (st : ServerState) (index : Nat) (cid : ChangeId) : ServerState :=
  let preset := st.presets.getD index zeroPreset
  let clients := (List.range st.clients.length).map
    (fun i => preset_changed_client preset index cid i (st.clients.getD i zeroClient))
  { st with clients := clients }

/-- Which member of the `cp_tx_params` union was filled in before the GATT
dispatch call (`bt_gatt_notify_params` vs `bt_gatt_indicate_params`). -/
inductive ParamsKind
  | notifyParams
  | indicateParams
deriving DecidableEq, Repr

/-- The GATT primitive actually invoked by `control_point_tx`. -/
inductive GattCall
  | gattIndicate (k : ParamsKind)
  | gattNotify (k : ParamsKind)
deriving DecidableEq, Repr

/-- `control_point_tx(client, buf)`: if `CP_NFY_ENABLED` is set, the code
fills the `nfy` member of the union (including `nfy.func`) and then calls
`bt_gatt_indicate(conn, &cp_tx_params.ind)`; else if `CP_IND_ENABLED` is set
it fills the `ind` member and calls `bt_gatt_indicate`; otherwise it returns
`-ECANCELED` (modelled as `Except.error`). -/
def control_point_tx (c : Client) : Except Unit GattCall :=
  if c.nfyEnabled then Except.ok (GattCall.gattIndicate ParamsKind.notifyParams)
  else if c.indEnabled then Except.ok (GattCall.gattIndicate ParamsKind.indicateParams)
  else Except.error ()

/-- A `READ_PRESET_RSP` wire frame (`bt_has_cp_read_preset_rsp` plus the
name bytes). -/
structure ReadPresetRsp where
  isLast : Bool
  id : Nat
  properties : Nat
  name : List Nat
deriving DecidableEq, Repr

/-- A `PRESET_CHANGED` wire frame (`bt_has_cp_preset_changed`): the change id,
the `is_last` flag, and the id of the preset the change is about. -/
structure PresetChangedFrame where
  changeId : ChangeId
  isLast : Bool
  targetId : Nat
deriving DecidableEq, Repr

/-- A unit of Control-Point output built by the transmit work. -/
inductive Frame
  | read (r : ReadPresetRsp)
  | changed (f : PresetChangedFrame)
deriving DecidableEq, Repr

/-- `bt_has_cp_read_preset_rsp(client, preset, is_last)`: the frame built
(dispatching is `control_point_tx`). -/
def bt_has_cp_read_preset_rsp (preset : Preset) (isLast : Bool) : Frame :=
  Frame.read { isLast := isLast, id := preset.id, properties := preset.properties,
               name := preset.name }

/-- `bt_has_cp_preset_changed(client, preset, is_last)`: the frame built, with
the change id taken from the client's `change_id` slot for the preset. -/
def bt_has_cp_preset_changed (c : Client) (index : Nat) (preset : Preset)
    (isLast : Bool) : Frame :=
  Frame.changed { changeId := c.changeId.getD index ChangeId.genericUpdate,
                  isLast := isLast, targetId := preset.id }

/-- Set this client's name-awareness bit on a preset
(`atomic_set_bit(preset->is_client_name_aware, client_index(client))`). -/
def preset_set_name_aware (presets : List Preset) (index ci : Nat) : List Preset :=
  match presets.getD index zeroPreset with
  | p => presets.set index { p with nameAware := insert ci p.nameAware }

/-- `process_control_point_tx_work` for the client at position `ci`: picks one
unit of output (read-response sequence first, then a pending preset-changed),
builds the frame and dispatches it via `control_point_tx`.  Returns the new
state together with the dispatched frame (`none` when nothing was sent: not
connected, nothing pending, or synchronous dispatch failure, in which case
`CP_BUSY` is cleared). On success the preset's name-awareness bit for this
client is set and its pending-changed bit cleared. -/
def process_control_point_tx_work (st : ServerState) (ci : Nat) :
    ServerState × Option Frame :=
  let c := st.clients.getD ci zeroClient
  if !(c.conn.isSome && c.connected) then
    -- err = -ENOTCONN
    ({ st with clients := st.clients.set ci { c with busy := false } }, none)
  else if is_read_preset_rsp_pending c then
    match c.readPending with
    | none => (st, none)
    | some i =>
      let preset := st.presets.getD i zeroPreset
      let next :=
        if 1 < c.readNum then
          preset_foreach_find st.presets st.lastPresetId (preset.id + 1)
            st.lastPresetId find_visible
        else none
      let isLast := next.isNone
      let c1 := { c with readPending := next.map Prod.fst, readNum := c.readNum - 1 }
      let frame := bt_has_cp_read_preset_rsp preset isLast
      match control_point_tx c1 with
      | Except.error _ =>
        ({ st with clients := st.clients.set ci { c1 with busy := false } }, none)
      | Except.ok _ =>
        let c2 := preset_changed_clear c1 i
        ({ st with clients := st.clients.set ci c2,
                   presets := preset_set_name_aware st.presets i ci }, some frame)
  else if is_preset_changed_pending c then
    match c.pending.min with
    | none => (st, none)
    | some i =>
      let preset := st.presets.getD i zeroPreset
      let isLast := c.pending.card = 1
      let frame := bt_has_cp_preset_changed c i preset isLast
      match control_point_tx c with
      | Except.error _ =>
        ({ st with clients := st.clients.set ci { c with busy := false } }, none)
      | Except.ok _ =>
        let c2 := preset_changed_clear c i
        ({ st with clients := st.clients.set ci c2,
                   presets := preset_set_name_aware st.presets i ci }, some frame)
  else
    -- err = -ENODATA
    ({ st with clients := st.clients.set ci { c with busy := false } }, none)

/-- `handle_read_preset_req(client, buf)`: `buf` is the payload after the
opcode byte.  Returns the error (if rejected) together with the state after
the handler ran (the C handler clears `preset_pending` before the
`OUT_OF_RANGE` check, so that mutation is kept on that path too). -/
def handle_read_preset_req (st : ServerState) (ci : Nat) (buf : List Nat) :
    Option AttErr × ServerState :=
  let c := st.clients.getD ci zeroClient
  if buf.length < 2 then (some AttErr.invalidParamLen, st)
  else
    let startId := buf.getD 0 0
    let num := buf.getD 1 0
    if is_read_preset_rsp_pending c then (some AttErr.operationNotPossible, st)
    else
      let c0 := { c with readPending := none }
      let found :=
        if 0 < num then
          preset_foreach_find st.presets st.lastPresetId startId st.lastPresetId find_visible
        else none
      match found with
      | none => (some AttErr.outOfRange, { st with clients := st.clients.set ci c0 })
      | some q =>
        let c1 := control_point_tx_work_submit
          { c0 with readPending := some q.1, readNum := num } CP_WORK_TIMEOUT
        (none, { st with clients := st.clients.set ci c1 })

/-- `preset_name_set(id, name, len)` (dynamic-preset-name build): validates
the length, the id and the WRITABLE property; on success copies the first
`len` bytes of the new name and, only if the preset is not hidden, clears all
clients' name-awareness bits and raises a GENERIC_UPDATE change event.
Returns the error (if rejected) together with the resulting state. -/
def preset_name_set (st : ServerState) (id : Nat) (name : List Nat) (len : Nat) :
    Option AttErr × ServerState :=
  if len < PRESET_NAME_MIN ∨ PRESET_NAME_MAX < len then
    (some AttErr.invalidParamLen, st)
  else
    match preset_get st.presets id with
    | none => (some AttErr.outOfRange, st)
    | some q =>
      let i := q.1
      let p := q.2
      if p.properties &&& PROP_WRITABLE = 0 then (some AttErr.writeNameNotAllowed, st)
      else
        let p1 := { p with name := name.take len }
        if !p1.hidden then
          let p2 := { p1 with nameAware := ∅ }
          let st1 := { st with presets := st.presets.set i p2 }
          (none, preset_changed st1 i ChangeId.genericUpdate)
        else
          (none, { st with presets := st.presets.set i p1 })

/-- `handle_write_preset_name(client, buf)`: `buf` is the payload after the
opcode byte; its first byte is the preset id and the rest is the name. -/
def handle_write_preset_name (st : ServerState) (buf : List Nat) :
    Option AttErr × ServerState :=
  if buf.length < 1 then (some AttErr.invalidParamLen, st)
  else preset_name_set st (buf.getD 0 0) (buf.drop 1) (buf.length - 1)

/-- `call_ops_set_active_preset(id, sync)`: delegates the activation to the
application-supplied `active_set` callback.  The callback is an external
collaborator; the model records the id handed to it and treats the callback
as accepting (a nonzero callback return would map to
`OPERATION_NOT_POSSIBLE`). -/
def call_ops_set_active_preset (id : Nat) : Except AttErr Nat :=
  Except.ok id

/-- `handle_set_next_preset`: searches `[active_id + 1, last_preset_id]`, then
wraps to `[0x01, active_id - 1]` (both bounds are `uint8_t`, hence the
`% 256`), and returns `OPERATION_NOT_POSSIBLE` when neither range holds an
available, non-hidden preset. -/
def handle_set_next_preset (st : ServerState) : Except AttErr Nat :=
  match preset_foreach_find st.presets st.lastPresetId ((st.activeId + 1) % 256)
      st.lastPresetId find_available with
  | some q => call_ops_set_active_preset q.2.id
  | none =>
    match preset_foreach_find st.presets st.lastPresetId 1 ((st.activeId + 255) % 256)
        find_available with
    | some q => call_ops_set_active_preset q.2.id
    | none => Except.error AttErr.operationNotPossible

/-- `handle_set_prev_preset`: searches `[0x01, active_id - 1]` first (in
ascending array order, so it picks the lowest qualifying id), then
`[active_id + 1, last_preset_id]`. -/
def handle_set_prev_preset (st : ServerState) : Except AttErr Nat :=
  match preset_foreach_find st.presets st.lastPresetId 1 ((st.activeId + 255) % 256)
      find_available with
  | some q => call_ops_set_active_preset q.2.id
  | none =>
    match preset_foreach_find st.presets st.lastPresetId ((st.activeId + 1) % 256)
        st.lastPresetId find_available with
    | some q => call_ops_set_active_preset q.2.id
    | none => Except.error AttErr.operationNotPossible

/-- `handle_set_active_preset(client, buf, sync)`. -/
def handle_set_active_preset (st : ServerState) (buf : List Nat) : Except AttErr Nat :=
  if buf.length < 1 then Except.error AttErr.invalidParamLen
  else
    match preset_get st.presets (buf.getD 0 0) with
    | none => Except.error AttErr.outOfRange
    | some q =>
      if q.2.properties &&& PROP_AVAILABLE = 0 then
        Except.error AttErr.operationNotPossible
      else call_ops_set_active_preset q.2.id

/-- `BT_HAS_OP_READ_PRESET_REQ`. -/
def OP_READ_PRESET_REQ : Nat := 1
/-- `BT_HAS_OP_WRITE_PRESET_NAME`. -/
def OP_WRITE_PRESET_NAME : Nat := 4
/-- `BT_HAS_OP_SET_ACTIVE_PRESET`. -/
def OP_SET_ACTIVE_PRESET : Nat := 5
/-- `BT_HAS_OP_SET_NEXT_PRESET`. -/
def OP_SET_NEXT_PRESET : Nat := 6
/-- `BT_HAS_OP_SET_PREV_PRESET`. -/
def OP_SET_PREV_PRESET : Nat := 7
/-- `BT_HAS_OP_SET_ACTIVE_PRESET_SYNC`. -/
def OP_SET_ACTIVE_PRESET_SYNC : Nat := 8
/-- `BT_HAS_OP_SET_NEXT_PRESET_SYNC`. -/
def OP_SET_NEXT_PRESET_SYNC : Nat := 9
/-- `BT_HAS_OP_SET_PREV_PRESET_SYNC`. -/
def OP_SET_PREV_PRESET_SYNC : Nat := 10

/-- The scan loop of `client_find(conn)`. -/
def client_find_go (conn : Nat) : List Client → Option Nat
  | [] => none
  | c :: rest =>
    if c.conn = some conn then some 0
    else (client_find_go conn rest).map (· + 1)

/-- `client_find(conn)`: position of the client slot owning this connection. -/
def client_find (clients : List Client) (conn : Nat) : Option Nat :=
  client_find_go conn clients

/-- `control_point_rx(conn, attr, data, len, offset, flags)`: the Control
Point write handler.  On success it returns the consumed length `len`
(`data.length`); handlers that mutate state return it alongside.  The build
is the one present in the source: `CONFIG_BT_HAS_PRESET_NAME_DYNAMIC` enabled
and `CONFIG_BT_HAS_HA_PRESET_SYNC_SUPPORT` disabled (the `#else` branch
rejects the sync opcodes with `PRESET_SYNC_NOT_SUPP`). -/
def control_point_rx (st : ServerState) (conn : Nat) (data : List Nat)
    (offset : Nat) : Except AttErr Nat × ServerState :=
  match client_find st.clients conn with
  | none => (Except.error AttErr.unlikely, st)
  | some ci =>
    if 0 < offset then (Except.error AttErr.invalidOffset, st)
    else if data.length < 1 then (Except.error AttErr.invalidAttributeLen, st)
    else
      let c := st.clients.getD ci zeroClient
      let op := data.getD 0 0
      let buf := data.drop 1
      if op = OP_READ_PRESET_REQ then
        if !c.indEnabled then (Except.error AttErr.cccImproperConf, st)
        else if !c.attMtuValid then (Except.error AttErr.insufficientResources, st)
        else
          match handle_read_preset_req st ci buf with
          | (some e, st1) => (Except.error e, st1)
          | (none, st1) => (Except.ok data.length, st1)
      else if op = OP_WRITE_PRESET_NAME then
        if !c.indEnabled then (Except.error AttErr.cccImproperConf, st)
        else if !c.attMtuValid then (Except.error AttErr.insufficientResources, st)
        else
          match handle_write_preset_name st buf with
          | (some e, st1) => (Except.error e, st1)
          | (none, st1) => (Except.ok data.length, st1)
      else if op = OP_SET_ACTIVE_PRESET then
        if !c.indEnabled then (Except.error AttErr.cccImproperConf, st)
        else
          match handle_set_active_preset st buf with
          | Except.error e => (Except.error e, st)
          | Except.ok _ => (Except.ok data.length, st)
      else if op = OP_SET_NEXT_PRESET then
        match handle_set_next_preset st with
        | Except.error e => (Except.error e, st)
        | Except.ok _ => (Except.ok data.length, st)
      else if op = OP_SET_PREV_PRESET then
        match handle_set_prev_preset st with
        | Except.error e => (Except.error e, st)
        | Except.ok _ => (Except.ok data.length, st)
      else if op = OP_SET_ACTIVE_PRESET_SYNC ∨ op = OP_SET_NEXT_PRESET_SYNC ∨
          op = OP_SET_PREV_PRESET_SYNC then
        (Except.error AttErr.presetSyncNotSupp, st)
      else (Except.error AttErr.invalidOp, st)

/-- `client_free(client)`: clears this client's name-awareness bit on every
preset, cancels the transmit work, releases the connection reference and
zeroes the whole slot. -/
def client_free (st : ServerState) (i : Nat) : ServerState :=
  { st with
    presets := st.presets.map (fun p => { p with nameAware := p.nameAware.erase i }),
    clients := st.clients.set i zeroClient }

/-- The `disconnected` connection callback: frees the client slot, whenever
one exists for the connection (no bonding check on this path). -/
def disconnected (st : ServerState) (conn : Nat) : ServerState :=
  match client_find st.clients conn with
  | none => st
  | some i => client_free st i

/-- `active_preset_work_process`: the deferred Active Preset Index
notification sends the current `active_id` to all subscribers. -/
def active_preset_work_process (st : ServerState) : Nat :=
  st.activeId

/-- `bt_has_preset_active_set(has, id)` on the local server instance: no-op
when the id is already active, `-ENOENT` when the id is neither
`BT_HAS_PRESET_INDEX_NONE` nor an existing (possibly hidden) preset,
otherwise stores the id and submits `active_preset_work` (the returned flag;
it is a plain `k_work`, distinct from every client's `cp_tx_work`). -/
def bt_has_preset_active_set (st : ServerState) (id : Nat) :
    Int × ServerState × Bool :=
  if id = st.activeId then (0, st, false)
  else if id ≠ PRESET_INDEX_NONE ∧ (preset_get st.presets id).isNone then
    (-2, st, false)
  else (0, { st with activeId := id }, true)

/-- `bt_has_preset_availability_set(has, id, available)` on the local server:
looks the preset up (hidden presets and zeroed slots included), toggles the
AVAILABLE property bit when the requested value differs, and raises a
preset-changed event only when the preset is not hidden. -/
def bt_has_preset_availability_set (st : ServerState) (id : Nat)
    (available : Bool) : Int × ServerState :=
  match preset_get st.presets id with
  | none => (-2, st)
  | some q =>
    let i := q.1
    let p := q.2
    if decide (0 < p.properties &&& PROP_AVAILABLE) ≠ available then
      let p1 := { p with properties := p.properties ^^^ PROP_AVAILABLE }
      let st1 := { st with presets := st.presets.set i p1 }
      if !p1.hidden then
        (0, preset_changed st1 i
          (if available then ChangeId.available else ChangeId.unavailable))
      else (0, st1)
    else (0, st)

/-- `bt_has_preset_visibility_set(has, id, visible)` on the local server. -/
def bt_has_preset_visibility_set (st : ServerState) (id : Nat)
    (visible : Bool) : Int × ServerState :=
  match preset_get st.presets id with
  | none => (-2, st)
  | some q =>
    let i := q.1
    let p := q.2
    if p.hidden = visible then
      let p1 := { p with hidden := !visible }
      let st1 := { st with presets := st.presets.set i p1 }
      (0, preset_changed st1 i
        (if visible then ChangeId.genericUpdate else ChangeId.deleted))
    else (0, st)

/-- One record of `bt_has_register_param.preset_param`. -/
structure PresetRegisterParam where
  id : Nat
  properties : Nat
  name : List Nat
deriving DecidableEq, Repr

/-- The inner selection loop of `bt_has_register`: scan all input records and
keep the one with the smallest id that is still strictly greater than
`last_preset_id` (on equal ids the earlier record is kept). -/
def select_min_param (lastId : Nat) :
    List PresetRegisterParam → Option PresetRegisterParam → Option PresetRegisterParam
  | [], acc => acc
  | tmp :: rest, acc =>
    let take :=
      (match acc with
       | none => true
       | some a => decide (tmp.id < a.id)) && decide (lastId < tmp.id)
    select_min_param lastId rest (if take then some tmp else acc)

/-- The outer fill loop of `bt_has_register`: one iteration per slot of
`preset_list` (capacity `cnt`); stops as soon as no record with a fresh
larger id remains.  The stored name is truncated to 39 bytes
(`strncpy(..., ARRAY_SIZE(preset->name) - 1)`).  Returns the filled slots and
the final `last_preset_id`. -/
def register_fill (params : List PresetRegisterParam) :
    Nat → Nat → List Preset × Nat
  | 0, lastId => ([], lastId)
  | n + 1, lastId =>
    match select_min_param lastId params none with
    | none => ([], lastId)
    | some pp =>
      let p : Preset := { id := pp.id, properties := pp.properties,
                          name := pp.name.take 39, hidden := false, nameAware := ∅ }
      let rest := register_fill params n pp.id
      (p :: rest.1, rest.2)

/-- `BT_HAS_FEAT_BIT_WRITABLE_PRESETS BIT(5)`. -/
def FEAT_BIT_WRITABLE_PRESETS : Nat := 32

/-- `bt_has_register(param, out)` on a fresh server: fills `preset_list`
(capacity `cnt`) from the caller's records in ascending-id order, leaves the
remaining slots zeroed, and ORs in the writable-presets feature bit when any
stored preset is writable. -/
def bt_has_register (cnt : Nat) (params : List PresetRegisterParam)
    (features : Nat) : ServerState :=
  let fill := register_fill params cnt 0
  let writable := fill.1.any (fun p => decide (p.properties &&& PROP_WRITABLE ≠ 0))
  { presets := fill.1 ++ List.replicate (cnt - fill.1.length) zeroPreset,
    lastPresetId := fill.2,
    features := if writable then features ||| FEAT_BIT_WRITABLE_PRESETS else features,
    activeId := 0,
    clients := [] }

/-- Ids of the registered (non-zero) presets of a store, in array order. -/
def storeIds (st : ServerState) : List Nat :=
  st.presets.map Preset.id

/-- `control_point_tx_done` (the notify/indicate completion callback) for the
client at `ci`: clear `CP_BUSY` and resubmit the work immediately when more
output remains. -/
def control_point_tx_done (st : ServerState) (ci : Nat) : ServerState :=
  let c := st.clients.getD ci zeroClient
  let c1 := { c with busy := false }
  let c2 :=
    if is_preset_changed_pending c1 || is_read_preset_rsp_pending c1 then
      control_point_tx_work_submit c1 0
    else c1
  { st with clients := st.clients.set ci c2 }

/-- Drive the transmit work of client `ci` to completion: run the work, apply
the completion callback, repeat while output remains, collecting the
dispatched frames.  `fuel` bounds the number of work invocations. -/
def cp_tx_drain (ci : Nat) : Nat → ServerState → List Frame
  | 0, _ => []
  | fuel + 1, st =>
    let c := st.clients.getD ci zeroClient
    if is_read_preset_rsp_pending c || is_preset_changed_pending c then
      match process_control_point_tx_work st ci with
      | (st1, some f) => f :: cp_tx_drain ci fuel (control_point_tx_done st1 ci)
      | (_, none) => []
    else []

/-! ### Helper lemmas -/

theorem clients_getD_preset_changed (st : ServerState) (index cid_i : Nat)
    (cid : ChangeId) (hi : cid_i < st.clients.length) :
    (preset_changed st index cid).clients.getD cid_i zeroClient =
      preset_changed_client (st.presets.getD index zeroPreset) index cid cid_i
        (st.clients.getD cid_i zeroClient) := by
  simp only [preset_changed, List.getD_eq_getElem?_getD, List.getElem?_map,
    List.getElem?_range hi]
  rfl

theorem submit_pending_eq (c : Client) (d : Nat) :
    (control_point_tx_work_submit c d).pending = c.pending := by
  simp only [control_point_tx_work_submit]
  split <;> rfl

theorem submit_changeId_eq (c : Client) (d : Nat) :
    (control_point_tx_work_submit c d).changeId = c.changeId := by
  simp only [control_point_tx_work_submit]
  split <;> rfl

theorem submit_readPending_eq (c : Client) (d : Nat) :
    (control_point_tx_work_submit c d).readPending = c.readPending := by
  simp only [control_point_tx_work_submit]
  split <;> rfl

theorem submit_readNum_eq (c : Client) (d : Nat) :
    (control_point_tx_work_submit c d).readNum = c.readNum := by
  simp only [control_point_tx_work_submit]
  split <;> rfl

theorem preset_changed_client_pending (p : Preset) (index ci : Nat) (cid : ChangeId)
    (c : Client)
    (hsub : c.indEnabled = true ∨ c.nfyEnabled = true)
    (hconn : c.conn.isSome = true) (hconn2 : c.connected = true) :
    (preset_changed_client p index cid ci c).pending =
      (preset_changed_update c index (decide (ci ∈ p.nameAware)) cid).pending := by
  unfold preset_changed_client
  have hsub' : (!c.indEnabled && !c.nfyEnabled) = false := by
    rcases hsub with h | h <;> simp [h]
  rw [hsub']
  simp only [hconn, hconn2, Bool.and_self, Bool.not_true, Bool.false_eq_true, if_false]
  split
  · exact submit_pending_eq _ _
  · rfl

theorem preset_changed_client_changeId (p : Preset) (index ci : Nat) (cid : ChangeId)
    (c : Client)
    (hsub : c.indEnabled = true ∨ c.nfyEnabled = true)
    (hconn : c.conn.isSome = true) (hconn2 : c.connected = true) :
    (preset_changed_client p index cid ci c).changeId =
      (preset_changed_update c index (decide (ci ∈ p.nameAware)) cid).changeId := by
  unfold preset_changed_client
  have hsub' : (!c.indEnabled && !c.nfyEnabled) = false := by
    rcases hsub with h | h <;> simp [h]
  rw [hsub']
  simp only [hconn, hconn2, Bool.and_self, Bool.not_true, Bool.false_eq_true, if_false]
  split
  · exact submit_changeId_eq _ _
  · rfl


theorem preset_changed_set_mem (c : Client) (index : Nat) (cid : ChangeId) :
    index ∈ (preset_changed_set c index cid).pending :=
  Finset.mem_insert_self index c.pending

theorem preset_changed_set_getD (c : Client) (index : Nat) (cid : ChangeId)
    (hlen : index < c.changeId.length) :
    (preset_changed_set c index cid).changeId.getD index ChangeId.genericUpdate = cid := by
  simp [preset_changed_set, List.getD_eq_getElem?_getD, List.getElem?_set_self hlen]

/-- C1 (amended): per (peer, preset) pair exactly one pending change-kind is
tracked (a single `change_id` slot guarded by one pending bit).  For a
subscribed, connected peer, when a change event arrives for a preset: if no
change is pending the new change-id is set; if one is pending, new
GENERIC_UPDATE over pending DELETED (and new DELETED over pending
GENERIC_UPDATE) cancels the entry when the peer is name-aware and otherwise
replaces it; new AVAILABLE over pending UNAVAILABLE (and new UNAVAILABLE over
pending AVAILABLE) cancels the entry; but a new AVAILABLE or UNAVAILABLE over
any other pending change-kind leaves the pending entry unchanged (it does
not replace it), unlike what the claim states for those combinations. -/
theorem preset_changed_conflict_resolution
    (st : ServerState) (index i : Nat) (cid : ChangeId) (c c1 : Client) (aware : Bool)
    (hi : i < st.clients.length)
    (hc : c = st.clients.getD i zeroClient)
    (hc1 : c1 = (preset_changed st index cid).clients.getD i zeroClient)
    (haware : aware = decide (i ∈ (st.presets.getD index zeroPreset).nameAware))
    (hsub : c.indEnabled = true ∨ c.nfyEnabled = true)
    (hconn : c.conn.isSome = true) (hconn2 : c.connected = true)
    (hlen : index < c.changeId.length) :
    (index ∉ c.pending →
      index ∈ c1.pending ∧ c1.changeId.getD index ChangeId.genericUpdate = cid) ∧
    (index ∈ c.pending →
      ∀ old, old = c.changeId.getD index ChangeId.genericUpdate →
        ((((cid = ChangeId.genericUpdate ∧ old = ChangeId.deleted ∨
            cid = ChangeId.deleted ∧ old = ChangeId.genericUpdate) ∧ aware = true) ∨
          (cid = ChangeId.available ∧ old = ChangeId.unavailable) ∨
          (cid = ChangeId.unavailable ∧ old = ChangeId.available) →
          index ∉ c1.pending) ∧
        ((cid = ChangeId.genericUpdate ∧ ¬(old = ChangeId.deleted ∧ aware = true)) ∨
         (cid = ChangeId.deleted ∧ ¬(old = ChangeId.genericUpdate ∧ aware = true)) →
          index ∈ c1.pending ∧ c1.changeId.getD index ChangeId.genericUpdate = cid) ∧
        ((cid = ChangeId.available ∧ old ≠ ChangeId.unavailable) ∨
         (cid = ChangeId.unavailable ∧ old ≠ ChangeId.available) →
          c1.pending = c.pending ∧ c1.changeId = c.changeId))) := by
  subst hc1
  rw [clients_getD_preset_changed st index i cid hi]
  rw [← hc]
  have hP := preset_changed_client_pending (st.presets.getD index zeroPreset) index i cid c
    hsub hconn hconn2
  have hC := preset_changed_client_changeId (st.presets.getD index zeroPreset) index i cid c
    hsub hconn hconn2
  rw [← haware] at hP hC
  constructor
  · intro hnot
    have hk : preset_changed_update c index aware cid = preset_changed_set c index cid := by
      unfold preset_changed_update
      exact if_neg hnot
    rw [hP, hC, hk]
    exact ⟨preset_changed_set_mem c index cid, preset_changed_set_getD c index cid hlen⟩
  · intro hmem old hold
    subst hold
    cases cid with
    | genericUpdate =>
      by_cases hcond : c.changeId.getD index ChangeId.genericUpdate = ChangeId.deleted ∧ aware = true
      · have hk : preset_changed_update c index aware ChangeId.genericUpdate =
            preset_changed_clear c index := by
          unfold preset_changed_update
          rw [if_pos hmem]
          exact if_pos hcond
        rw [hP, hC, hk]
        refine ⟨fun _ => Finset.not_mem_erase index c.pending, ?_, ?_⟩
        · rintro (⟨h1, h2⟩ | ⟨h1, h2⟩)
          · exact absurd hcond h2
          · cases h1
        · rintro (⟨h1, _⟩ | ⟨h1, _⟩) <;> cases h1
      · have hk : preset_changed_update c index aware ChangeId.genericUpdate =
            preset_changed_set c index ChangeId.genericUpdate := by
          unfold preset_changed_update
          rw [if_pos hmem]
          exact if_neg hcond
        rw [hP, hC, hk]
        refine ⟨?_, ?_, ?_⟩
        · rintro (⟨h1 | h1, ha⟩ | ⟨h1, _⟩ | ⟨h1, _⟩)
          · exact absurd ⟨h1.2, ha⟩ hcond
          · cases h1.1
          · cases h1
          · cases h1
        · intro _
          exact ⟨preset_changed_set_mem c index _, preset_changed_set_getD c index _ hlen⟩
        · rintro (⟨h1, _⟩ | ⟨h1, _⟩) <;> cases h1
    | deleted =>
      by_cases hcond : c.changeId.getD index ChangeId.genericUpdate = ChangeId.genericUpdate ∧ aware = true
      · have hk : preset_changed_update c index aware ChangeId.deleted =
            preset_changed_clear c index := by
          unfold preset_changed_update
          rw [if_pos hmem]
          exact if_pos hcond
        rw [hP, hC, hk]
        refine ⟨fun _ => Finset.not_mem_erase index c.pending, ?_, ?_⟩
        · rintro (⟨h1, h2⟩ | ⟨h1, h2⟩)
          · cases h1
          · exact absurd hcond h2
        · rintro (⟨h1, _⟩ | ⟨h1, _⟩) <;> cases h1
      · have hk : preset_changed_update c index aware ChangeId.deleted =
            preset_changed_set c index ChangeId.deleted := by
          unfold preset_changed_update
          rw [if_pos hmem]
          exact if_neg hcond
        rw [hP, hC, hk]
        refine ⟨?_, ?_, ?_⟩
        · rintro (⟨h1 | h1, ha⟩ | ⟨h1, _⟩ | ⟨h1, _⟩)
          · cases h1.1
          · exact absurd ⟨h1.2, ha⟩ hcond
          · cases h1
          · cases h1
        · intro _
          exact ⟨preset_changed_set_mem c index _, preset_changed_set_getD c index _ hlen⟩
        · rintro (⟨h1, _⟩ | ⟨h1, _⟩) <;> cases h1
    | available =>
      by_cases hcond : c.changeId.getD index ChangeId.genericUpdate = ChangeId.unavailable
      · have hk : preset_changed_update c index aware ChangeId.available =
            preset_changed_clear c index := by
          unfold preset_changed_update
          rw [if_pos hmem]
          exact if_pos hcond
        rw [hP, hC, hk]
        refine ⟨fun _ => Finset.not_mem_erase index c.pending, ?_, ?_⟩
        · rintro (⟨h1, _⟩ | ⟨h1, _⟩) <;> cases h1
        · rintro (⟨_, h2⟩ | ⟨h1, _⟩)
          · exact absurd hcond h2
          · cases h1
      · have hk : preset_changed_update c index aware ChangeId.available = c := by
          unfold preset_changed_update
          rw [if_pos hmem]
          exact if_neg hcond
        rw [hP, hC, hk]
        refine ⟨?_, ?_, ?_⟩
        · rintro (⟨⟨h1, _⟩ | ⟨h1, _⟩, _⟩ | ⟨_, h2⟩ | ⟨h1, _⟩)
          · cases h1
          · cases h1
          · exact absurd h2 hcond
          · cases h1
        · rintro (⟨h1, _⟩ | ⟨h1, _⟩) <;> cases h1
        · intro _
          exact ⟨rfl, rfl⟩
    | unavailable =>
      by_cases hcond : c.changeId.getD index ChangeId.genericUpdate = ChangeId.available
      · have hk : preset_changed_update c index aware ChangeId.unavailable =
            preset_changed_clear c index := by
          unfold preset_changed_update
          rw [if_pos hmem]
          exact if_pos hcond
        rw [hP, hC, hk]
        refine ⟨fun _ => Finset.not_mem_erase index c.pending, ?_, ?_⟩
        · rintro (⟨h1, _⟩ | ⟨h1, _⟩) <;> cases h1
        · rintro (⟨h1, _⟩ | ⟨_, h2⟩)
          · cases h1
          · exact absurd hcond h2
      · have hk : preset_changed_update c index aware ChangeId.unavailable = c := by
          unfold preset_changed_update
          rw [if_pos hmem]
          exact if_neg hcond
        rw [hP, hC, hk]
        refine ⟨?_, ?_, ?_⟩
        · rintro (⟨⟨h1, _⟩ | ⟨h1, _⟩, _⟩ | ⟨h1, _⟩ | ⟨_, h2⟩)
          · cases h1
          · cases h1
          · cases h1
          · exact absurd h2 hcond
        · rintro (⟨h1, _⟩ | ⟨h1, _⟩) <;> cases h1
        · intro _
          exact ⟨rfl, rfl⟩

/-! ### Concrete sample states -/

/-- A client slot subscribed to Control-Point indications, connected, with a
valid ATT MTU and nothing pending. -/
def sampleClientSub : Client :=
  { conn := some 7, connected := true, encrypted := true, attMtuValid := true,
    indEnabled := true, nfyEnabled := false, busy := false, scheduled := none,
    pending := ∅, changeId := [ChangeId.genericUpdate], readPending := none,
    readNum := 0 }

/-- A visible, writable, available preset with id 1. -/
def samplePresetVisible : Preset :=
  { id := 1, properties := 3, name := [85], hidden := false, nameAware := ∅ }

/-- A one-preset store with one subscribed client and nothing pending. -/
def sampleStateEmptyPending : ServerState :=
  { presets := [samplePresetVisible], lastPresetId := 1, features := 0,
    activeId := 0, clients := [sampleClientSub] }

/-- Like `sampleClientSub`, but with a pending GENERIC_UPDATE for preset
slot 0. -/
def sampleClientPendingGU : Client :=
  { sampleClientSub with pending := {0} }

/-- The one-preset store whose client has a pending GENERIC_UPDATE. -/
def sampleStatePendingGU : ServerState :=
  { sampleStateEmptyPending with clients := [sampleClientPendingGU] }

/-- C1 counterexample: a PRESET_AVAILABLE event arriving while a
GENERIC_UPDATE is pending for a subscribed, connected peer does NOT replace
the pending change-id — the pending entry keeps GENERIC_UPDATE — contradicting
the claim that in this pending/new combination "the new change-id simply
replaces or sets the pending entry as usual". -/
theorem preset_changed_available_over_pending_generic_kept :
    0 ∈ ((preset_changed sampleStatePendingGU 0 ChangeId.available).clients.getD 0
      zeroClient).pending ∧
    ((preset_changed sampleStatePendingGU 0 ChangeId.available).clients.getD 0
      zeroClient).changeId.getD 0 ChangeId.genericUpdate = ChangeId.genericUpdate ∧
    ChangeId.genericUpdate ≠ ChangeId.available := by
  refine ⟨by decide, by decide, by decide⟩

/-- Witness for C1: instantiating the conflict-resolution theorem on the
concrete one-preset store with nothing pending and a DELETED event. -/
theorem preset_changed_conflict_resolution_witness :
    0 ∈ ((preset_changed sampleStateEmptyPending 0 ChangeId.deleted).clients.getD 0
      zeroClient).pending ∧
    ((preset_changed sampleStateEmptyPending 0 ChangeId.deleted).clients.getD 0
      zeroClient).changeId.getD 0 ChangeId.genericUpdate = ChangeId.deleted := by
  have h := preset_changed_conflict_resolution sampleStateEmptyPending 0 0
    ChangeId.deleted sampleClientSub
    ((preset_changed sampleStateEmptyPending 0 ChangeId.deleted).clients.getD 0 zeroClient)
    false (by decide) (by decide) rfl (by decide) (Or.inl (by decide)) (by decide)
    (by decide) (by decide)
  exact h.1 (by decide)

/-- A client slot subscribed only to Control-Point notifications. -/
def sampleClientNfyOnly : Client :=
  { sampleClientSub with indEnabled := false, nfyEnabled := true }

/-- C7 (code evaluation at the failing input): for a peer subscribed only to
notifications, `control_point_tx` fills the `bt_gatt_notify_params` member of
the union but then invokes `bt_gatt_indicate` on it — no GATT notification is
ever issued, contradicting the claim that the frame is sent as a notification
when the peer is only subscribed to notifications. -/
theorem control_point_tx_notify_only_calls_indicate :
    control_point_tx sampleClientNfyOnly =
      Except.ok (GattCall.gattIndicate ParamsKind.notifyParams) ∧
    ∀ k, control_point_tx sampleClientNfyOnly ≠
      Except.ok (GattCall.gattNotify k) := by
  constructor
  · rfl
  · intro k h
    cases Except.ok.inj h

theorem client_find_go_some (conn : Nat) (l : List Client) (i : Nat)
    (h : client_find_go conn l = some i) :
    i < l.length ∧ (l.getD i zeroClient).conn = some conn := by
  induction l generalizing i with
  | nil => cases h
  | cons c rest ih =>
    unfold client_find_go at h
    by_cases hc : c.conn = some conn
    · rw [if_pos hc] at h
      cases h
      exact ⟨Nat.succ_pos _, hc⟩
    · rw [if_neg hc] at h
      match hrec : client_find_go conn rest with
      | none => rw [hrec] at h; cases h
      | some j =>
        rw [hrec] at h
        cases h
        obtain ⟨h1, h2⟩ := ih j hrec
        exact ⟨Nat.succ_lt_succ h1, h2⟩

theorem preset_get_go_some (id : Nat) (l : List Preset) (i : Nat) (p : Preset)
    (h : preset_get_go id l = some (i, p)) :
    i < l.length ∧ l.getD i zeroPreset = p ∧ p.id = id := by
  induction l generalizing i with
  | nil => cases h
  | cons q rest ih =>
    unfold preset_get_go at h
    by_cases hq : q.id = id
    · rw [if_pos hq] at h
      cases h
      exact ⟨Nat.succ_pos _, rfl, hq⟩
    · rw [if_neg hq] at h
      match hrec : preset_get_go id rest with
      | none => rw [hrec] at h; cases h
      | some (j, r) =>
        rw [hrec] at h
        cases h
        obtain ⟨h1, h2, h3⟩ := ih j hrec
        exact ⟨Nat.succ_lt_succ h1, h2, h3⟩

theorem preset_find_go_some (s e : Nat) (pred : Preset → Bool) (l : List Preset)
    (i : Nat) (p : Preset) (h : preset_find_go s e pred l = some (i, p)) :
    i < l.length ∧ l.getD i zeroPreset = p ∧ pred p = true ∧ s ≤ p.id ∧ p.id ≤ e := by
  induction l generalizing i with
  | nil => cases h
  | cons q rest ih =>
    unfold preset_find_go at h
    by_cases h1 : q.id < s
    · rw [if_pos h1] at h
      match hrec : preset_find_go s e pred rest with
      | none => rw [hrec] at h; cases h
      | some (j, r) =>
        rw [hrec] at h
        cases h
        obtain ⟨g1, g2, g3, g4, g5⟩ := ih j hrec
        exact ⟨Nat.succ_lt_succ g1, g2, g3, g4, g5⟩
    · rw [if_neg h1] at h
      by_cases h2 : e < q.id
      · rw [if_pos h2] at h; cases h
      · rw [if_neg h2] at h
        by_cases h3 : pred q = true
        · rw [if_pos h3] at h
          cases h
          exact ⟨Nat.succ_pos _, rfl, h3, Nat.le_of_not_lt h1, Nat.le_of_not_lt h2⟩
        · rw [if_neg h3] at h
          match hrec : preset_find_go s e pred rest with
          | none => rw [hrec] at h; cases h
          | some (j, r) =>
            rw [hrec] at h
            cases h
            obtain ⟨g1, g2, g3, g4, g5⟩ := ih j hrec
            exact ⟨Nat.succ_lt_succ g1, g2, g3, g4, g5⟩

theorem preset_foreach_find_some (presets : List Preset) (lastId s e i : Nat)
    (p : Preset) (h : preset_foreach_find presets lastId s e pred = some (i, p)) :
    i < presets.length ∧ presets.getD i zeroPreset = p ∧ pred p = true ∧
      s ≤ p.id ∧ p.id ≤ e := by
  unfold preset_foreach_find at h
  by_cases hs : s ≤ lastId
  · rw [if_pos hs] at h
    exact preset_find_go_some s e pred presets i p h
  · rw [if_neg hs] at h
    cases h


/-- C8 (amended): on EVERY disconnect of a peer with a session slot, the slot
is fully freed — the client's name-awareness bit is cleared from every preset
and the whole slot is zeroed (pending preset-changed bitmap and change-ids
included).  Nothing survives the disconnect; stale peers are instead handled
by re-marking every non-hidden preset pending on reconnection. -/
theorem disconnected_frees_client (st : ServerState) (conn i : Nat)
    (h : client_find st.clients conn = some i) :
    (disconnected st conn).clients.getD i zeroClient = zeroClient ∧
    (disconnected st conn).clients.length = st.clients.length ∧
    (∀ j, ((disconnected st conn).presets.getD j zeroPreset).nameAware =
      ((st.presets.getD j zeroPreset).nameAware).erase i) := by
  obtain ⟨hlt, _⟩ := client_find_go_some conn st.clients i h
  unfold disconnected
  rw [h]
  unfold client_free
  refine ⟨?_, ?_, ?_⟩
  · simp [List.getD_eq_getElem?_getD, List.getElem?_set_self hlt]
  · simp
  · intro j
    by_cases hj : j < st.presets.length
    · simp [List.getD_eq_getElem?_getD, List.getElem?_map, List.getElem?_eq_getElem hj]
    · rw [List.getD_eq_default _ _ (by simpa using Nat.le_of_not_lt hj),
          List.getD_eq_default _ _ (Nat.le_of_not_lt hj)]
      simp [zeroPreset]

/-- C8 counterexample: a bonded, subscribed, connected peer with a pending
preset-changed bit disconnects; its slot is zeroed and the pending bitmap is
empty afterwards, contradicting the claim that pending preset-changed state
survives disconnect and the slot is zeroed only on explicit free. -/
theorem disconnected_drops_pending_changes :
    client_find sampleStatePendingGU.clients 7 = some 0 ∧
    0 ∈ sampleClientPendingGU.pending ∧
    (disconnected sampleStatePendingGU 7).clients.getD 0 zeroClient = zeroClient ∧
    ((disconnected sampleStatePendingGU 7).clients.getD 0 zeroClient).pending = ∅ := by
  refine ⟨by decide, by decide, by decide, by decide⟩

/-- Witness for C8 (amended): the concrete pending-change state, freed on
disconnect. -/
theorem disconnected_frees_client_witness :
    (disconnected sampleStatePendingGU 7).clients.getD 0 zeroClient = zeroClient := by
  exact (disconnected_frees_client sampleStatePendingGU 7 0 (by decide)).1


/-- C10: toggling availability of a hidden preset flips exactly the AVAILABLE
property bit (bit 1) of that preset, returns 0, and raises no preset-changed
event: the whole client table is left untouched. -/
theorem bt_has_preset_availability_set_hidden (st : ServerState) (id : Nat)
    (avail : Bool) (i : Nat) (p : Preset)
    (hget : preset_get st.presets id = some (i, p))
    (hhid : p.hidden = true)
    (hdiff : decide (0 < p.properties &&& PROP_AVAILABLE) ≠ avail) :
    bt_has_preset_availability_set st id avail =
      (0, { st with presets :=
        st.presets.set i { p with properties := p.properties ^^^ PROP_AVAILABLE } }) ∧
    (bt_has_preset_availability_set st id avail).2.clients = st.clients ∧
    (∀ c, c ∈ (bt_has_preset_availability_set st id avail).2.clients → c ∈ st.clients) ∧
    (∀ k, k ≠ 1 → (p.properties ^^^ PROP_AVAILABLE).testBit k = p.properties.testBit k) ∧
    (p.properties ^^^ PROP_AVAILABLE).testBit 1 = !p.properties.testBit 1 := by
  have hmain : bt_has_preset_availability_set st id avail =
      (0, { st with presets :=
        st.presets.set i { p with properties := p.properties ^^^ PROP_AVAILABLE } }) := by
    unfold bt_has_preset_availability_set
    rw [hget]
    dsimp only
    rw [if_pos hdiff]
    rw [hhid]
    rfl
  refine ⟨hmain, by rw [hmain], by rw [hmain]; exact fun c hc => hc, ?_, ?_⟩
  · intro k hk
    have h2 : PROP_AVAILABLE = 2 ^ 1 := rfl
    rw [Nat.testBit_xor, h2, Nat.testBit_two_pow_of_ne (fun h => hk h.symm)]
    simp
  · have h2 : PROP_AVAILABLE = 2 ^ 1 := rfl
    rw [Nat.testBit_xor, h2, Nat.testBit_two_pow_self]
    cases p.properties.testBit 1 <;> rfl


def samplePresetHidden : Preset :=
  { id := 2, properties := 1, name := [65], hidden := true, nameAware := {0} }

def sampleStateHidden : ServerState :=
  { presets := [samplePresetHidden], lastPresetId := 2, features := 0,
    activeId := 0, clients := [sampleClientPendingGU] }

/-- Witness for C10 on the concrete hidden-preset store. -/
theorem bt_has_preset_availability_set_hidden_witness :
    (bt_has_preset_availability_set sampleStateHidden 2 true).2.clients =
      sampleStateHidden.clients :=
  (bt_has_preset_availability_set_hidden sampleStateHidden 2 true 0
    samplePresetHidden (by decide) rfl (by decide)).2.1

/-- C6: `bt_has_preset_active_set` is a successful no-op when the id is
already active (no notification work submitted); returns `-ENOENT` leaving
`active_id` unchanged when the id is neither NONE nor an existing (possibly
hidden) preset; otherwise stores the id and submits `active_preset_work`
(which notifies the Active Preset Index value, the new id) — a work item
distinct from the Control-Point scheduler, with the client table unchanged. -/
theorem bt_has_preset_active_set_spec (st : ServerState) (id : Nat) :
    (id = st.activeId → bt_has_preset_active_set st id = (0, st, false)) ∧
    (id ≠ st.activeId → id ≠ PRESET_INDEX_NONE → preset_get st.presets id = none →
      bt_has_preset_active_set st id = (-2, st, false)) ∧
    (id ≠ st.activeId → (id = PRESET_INDEX_NONE ∨ (preset_get st.presets id).isSome) →
      bt_has_preset_active_set st id = (0, { st with activeId := id }, true) ∧
      (bt_has_preset_active_set st id).2.1.clients = st.clients ∧
      active_preset_work_process (bt_has_preset_active_set st id).2.1 = id) := by
  refine ⟨?_, ?_, ?_⟩
  · intro h
    unfold bt_has_preset_active_set
    rw [if_pos h]
  · intro h1 h2 h3
    unfold bt_has_preset_active_set
    rw [if_neg h1, if_pos ⟨h2, by rw [h3]; rfl⟩]
  · intro h1 h2
    have hneg : ¬(id ≠ PRESET_INDEX_NONE ∧ (preset_get st.presets id).isNone) := by
      rcases h2 with h | h
      · exact fun hcon => hcon.1 h
      · intro hcon
        rw [Option.isNone_iff_eq_none] at hcon
        rw [hcon.2] at h
        cases h
    have hmain : bt_has_preset_active_set st id = (0, { st with activeId := id }, true) := by
      unfold bt_has_preset_active_set
      rw [if_neg h1, if_neg hneg]
    exact ⟨hmain, by rw [hmain], by rw [hmain]; rfl⟩

/-- Witness for C6: the three branches at concrete inputs. -/
theorem bt_has_preset_active_set_spec_witness :
    bt_has_preset_active_set sampleStateEmptyPending 1 =
      (0, { sampleStateEmptyPending with activeId := 1 }, true) ∧
    bt_has_preset_active_set sampleStateEmptyPending 4 =
      (-2, sampleStateEmptyPending, false) ∧
    bt_has_preset_active_set sampleStateEmptyPending 0 =
      (0, sampleStateEmptyPending, false) := by
  refine ⟨?_, ?_, ?_⟩
  · exact ((bt_has_preset_active_set_spec sampleStateEmptyPending 1).2.2 (by decide)
      (Or.inr (by decide))).1
  · exact (bt_has_preset_active_set_spec sampleStateEmptyPending 4).2.1 (by decide)
      (by decide) (by decide)
  · exact (bt_has_preset_active_set_spec sampleStateEmptyPending 0).1 (by decide)


theorem preset_changed_update_gu_not_aware (c : Client) (i : Nat) :
    preset_changed_update c i false ChangeId.genericUpdate =
      preset_changed_set c i ChangeId.genericUpdate := by
  unfold preset_changed_update
  split
  · dsimp only
    rw [if_neg]
    rintro ⟨_, h⟩
    cases h
  · rfl

/-- C5 (amended): WRITE_PRESET_NAME validation order and effects: a name
length outside [1,40] is rejected with INVALID_PARAM_LEN; an id matching no
array entry is rejected with OUT_OF_RANGE; a non-writable preset is rejected
with WRITE_NAME_NOT_ALLOWED — in each rejection the state (hence the stored
name) is unchanged.  On success the name is updated and, ONLY if the preset
is not hidden, every peer's name-awareness bit for it is cleared and a
GENERIC_UPDATE change event is raised towards all subscribed connected peers;
for a hidden preset the name-awareness bits are left unchanged (unlike the
claim) and no event is raised. -/
theorem preset_name_set_spec (st : ServerState) (id : Nat) (name : List Nat) (len : Nat) :
    (len < PRESET_NAME_MIN ∨ PRESET_NAME_MAX < len →
      preset_name_set st id name len = (some AttErr.invalidParamLen, st)) ∧
    (PRESET_NAME_MIN ≤ len → len ≤ PRESET_NAME_MAX → preset_get st.presets id = none →
      preset_name_set st id name len = (some AttErr.outOfRange, st)) ∧
    (∀ i p, PRESET_NAME_MIN ≤ len → len ≤ PRESET_NAME_MAX →
      preset_get st.presets id = some (i, p) → p.properties &&& PROP_WRITABLE = 0 →
      preset_name_set st id name len = (some AttErr.writeNameNotAllowed, st)) ∧
    (∀ i p, PRESET_NAME_MIN ≤ len → len ≤ PRESET_NAME_MAX →
      preset_get st.presets id = some (i, p) → p.properties &&& PROP_WRITABLE ≠ 0 →
      p.hidden = true →
      preset_name_set st id name len =
        (none, { st with presets := st.presets.set i { p with name := name.take len } })) ∧
    (∀ i p, PRESET_NAME_MIN ≤ len → len ≤ PRESET_NAME_MAX →
      preset_get st.presets id = some (i, p) → p.properties &&& PROP_WRITABLE ≠ 0 →
      p.hidden = false →
      (preset_name_set st id name len).1 = none ∧
      (preset_name_set st id name len).2.presets =
        st.presets.set i { p with name := name.take len, nameAware := ∅ } ∧
      (∀ j, j < st.clients.length →
        ((st.clients.getD j zeroClient).indEnabled = true ∨
          (st.clients.getD j zeroClient).nfyEnabled = true) →
        (st.clients.getD j zeroClient).conn.isSome = true →
        (st.clients.getD j zeroClient).connected = true →
        i ∈ ((preset_name_set st id name len).2.clients.getD j zeroClient).pending ∧
        (i < (st.clients.getD j zeroClient).changeId.length →
          ((preset_name_set st id name len).2.clients.getD j zeroClient).changeId.getD i
            ChangeId.genericUpdate = ChangeId.genericUpdate))) := by
  refine ⟨?_, ?_, ?_, ?_, ?_⟩
  · intro h
    unfold preset_name_set
    rw [if_pos h]
  · intro h1 h2 h3
    unfold preset_name_set
    rw [if_neg (by push_neg; exact ⟨h1, h2⟩), h3]
  · intro i p h1 h2 hget hw
    unfold preset_name_set
    rw [if_neg (by push_neg; exact ⟨h1, h2⟩), hget]
    dsimp only
    rw [if_pos hw]
  · intro i p h1 h2 hget hw hhid
    unfold preset_name_set
    rw [if_neg (by push_neg; exact ⟨h1, h2⟩), hget]
    dsimp only
    rw [if_neg hw, hhid]
    rfl
  · intro i p h1 h2 hget hw hhid
    obtain ⟨hilt, hgetd, hpid⟩ := preset_get_go_some id st.presets i p hget
    have hmain : preset_name_set st id name len =
        (none, preset_changed
          { st with presets := st.presets.set i { p with name := name.take len, nameAware := ∅ } }
          i ChangeId.genericUpdate) := by
      unfold preset_name_set
      rw [if_neg (by push_neg; exact ⟨h1, h2⟩), hget]
      dsimp only
      rw [if_neg hw, hhid]
      rfl
    refine ⟨by rw [hmain], by rw [hmain]; rfl, ?_⟩
    intro j hj hsub hconn hconn2
    set st1 : ServerState :=
      { st with presets := st.presets.set i { p with name := name.take len, nameAware := ∅ } }
      with hst1
    have hj1 : j < st1.clients.length := hj
    have hcj : st1.clients.getD j zeroClient = st.clients.getD j zeroClient := rfl
    have hgc := clients_getD_preset_changed st1 i j ChangeId.genericUpdate hj1
    have hpreset : st1.presets.getD i zeroPreset =
        { p with name := name.take len, nameAware := ∅ } := by
      simp [hst1, List.getD_eq_getElem?_getD, List.getElem?_set_self hilt]
    have hP := preset_changed_client_pending (st1.presets.getD i zeroPreset) i j
      ChangeId.genericUpdate (st.clients.getD j zeroClient) hsub hconn hconn2
    have hC := preset_changed_client_changeId (st1.presets.getD i zeroPreset) i j
      ChangeId.genericUpdate (st.clients.getD j zeroClient) hsub hconn hconn2
    have haware : decide (j ∈ (st1.presets.getD i zeroPreset).nameAware) = false := by
      rw [hpreset]
      simp
    rw [haware] at hP hC
    rw [preset_changed_update_gu_not_aware] at hP hC
    constructor
    · rw [hmain]
      dsimp only
      rw [hgc, hcj, hP]
      exact preset_changed_set_mem _ _ _
    · intro hlen
      rw [hmain]
      dsimp only
      rw [hgc, hcj, hC]
      exact preset_changed_set_getD _ _ _ hlen


/-- C5 counterexample: renaming a hidden (writable) preset succeeds and
updates the name, but the peer name-awareness bits are NOT cleared — the
awareness set is still `{0}` — contradicting the claim that on success every
peer's name-awareness bit for the preset is cleared. -/
theorem preset_name_set_hidden_keeps_awareness :
    (preset_name_set sampleStateHidden 2 [66] 1).1 = none ∧
    ((preset_name_set sampleStateHidden 2 [66] 1).2.presets.getD 0 zeroPreset).name = [66] ∧
    ((preset_name_set sampleStateHidden 2 [66] 1).2.presets.getD 0 zeroPreset).nameAware = {0} ∧
    ({0} : Finset Nat) ≠ (∅ : Finset Nat) := by
  refine ⟨by decide, by decide, by decide, by decide⟩

/-- Witness for C5 (amended): a successful rename of the visible preset
raising a pending GENERIC_UPDATE for the subscribed peer. -/
theorem preset_name_set_spec_witness :
    (preset_name_set sampleStateEmptyPending 1 [75] 1).1 = none ∧
    0 ∈ ((preset_name_set sampleStateEmptyPending 1 [75] 1).2.clients.getD 0
      zeroClient).pending := by
  have h := (preset_name_set_spec sampleStateEmptyPending 1 [75] 1).2.2.2.2 0
    samplePresetVisible (by decide) (by decide) (by decide) (by decide) rfl
  exact ⟨h.1, (h.2.2 0 (by decide) (Or.inl (by decide)) (by decide) (by decide)).1⟩


def storeOrdered (l : List Preset) : Prop :=
  l.Pairwise (fun p q => p.id < q.id ∨ q.id = 0)

instance (l : List Preset) : Decidable (storeOrdered l) := by
  unfold storeOrdered
  infer_instance

theorem preset_find_go_none (s e : Nat) (pred : Preset → Bool) (l : List Preset)
    (hord : storeOrdered l) (hs : 1 ≤ s)
    (h : preset_find_go s e pred l = none) :
    ∀ q ∈ l, ¬(pred q = true ∧ s ≤ q.id ∧ q.id ≤ e) := by
  induction l with
  | nil => intro q hq; cases hq
  | cons p rest ih =>
    have hord' : storeOrdered rest := (List.pairwise_cons.mp hord).2
    have hhead := (List.pairwise_cons.mp hord).1
    unfold preset_find_go at h
    by_cases h1 : p.id < s
    · rw [if_pos h1] at h
      intro q hq
      rcases List.mem_cons.mp hq with rfl | hq'
      · rintro ⟨_, hle, _⟩
        exact absurd h1 (Nat.not_lt_of_le hle)
      · exact ih hord' (by
          cases hrec : preset_find_go s e pred rest with
          | none => rfl
          | some v => rw [hrec] at h; cases h) q hq'
    · rw [if_neg h1] at h
      by_cases h2 : e < p.id
      · rw [if_pos h2] at h
        intro q hq
        rcases List.mem_cons.mp hq with rfl | hq'
        · rintro ⟨_, _, hle⟩
          exact absurd h2 (Nat.not_lt_of_le hle)
        · rintro ⟨_, hsle, hele⟩
          rcases hhead q hq' with hlt | hzero
          · have : e < q.id := Nat.lt_trans h2 hlt
            exact absurd hele (Nat.not_le_of_lt this)
          · rw [hzero] at hsle
            omega
      · rw [if_neg h2] at h
        by_cases h3 : pred p = true
        · rw [if_pos h3] at h
          cases h
        · rw [if_neg h3] at h
          intro q hq
          rcases List.mem_cons.mp hq with rfl | hq'
          · rintro ⟨hp, _, _⟩
            exact h3 hp
          · exact ih hord' (by
              cases hrec : preset_find_go s e pred rest with
              | none => rfl
              | some v => rw [hrec] at h; cases h) q hq'

theorem preset_find_go_least (s e : Nat) (pred : Preset → Bool) (l : List Preset)
    (hord : storeOrdered l) (hs : 1 ≤ s) (i : Nat) (p : Preset)
    (h : preset_find_go s e pred l = some (i, p)) :
    ∀ q ∈ l, pred q = true → s ≤ q.id → q.id ≤ e → p.id ≤ q.id := by
  induction l generalizing i with
  | nil => cases h
  | cons r rest ih =>
    have hord' : storeOrdered rest := (List.pairwise_cons.mp hord).2
    have hhead := (List.pairwise_cons.mp hord).1
    unfold preset_find_go at h
    by_cases h1 : r.id < s
    · rw [if_pos h1] at h
      match hrec : preset_find_go s e pred rest with
      | none => rw [hrec] at h; cases h
      | some (j, v) =>
        rw [hrec] at h
        cases h
        intro q hq hp hsle hele
        rcases List.mem_cons.mp hq with rfl | hq'
        · exact absurd h1 (Nat.not_lt_of_le hsle)
        · exact ih hord' j hrec q hq' hp hsle hele
    · rw [if_neg h1] at h
      by_cases h2 : e < r.id
      · rw [if_pos h2] at h; cases h
      · rw [if_neg h2] at h
        by_cases h3 : pred r = true
        · rw [if_pos h3] at h
          cases h
          intro q hq _ hsle _
          rcases List.mem_cons.mp hq with rfl | hq'
          · exact Nat.le_refl _
          · rcases hhead q hq' with hlt | hzero
            · exact Nat.le_of_lt hlt
            · rw [hzero] at hsle
              omega
        · rw [if_neg h3] at h
          match hrec : preset_find_go s e pred rest with
          | none => rw [hrec] at h; cases h
          | some (j, v) =>
            rw [hrec] at h
            cases h
            intro q hq hp hsle hele
            rcases List.mem_cons.mp hq with rfl | hq'
            · exact absurd hp h3
            · exact ih hord' j hrec q hq' hp hsle hele

theorem preset_find_go_not_none (s e : Nat) (pred : Preset → Bool) (l : List Preset)
    (hord : storeOrdered l) (hs : 1 ≤ s) (q : Preset) (hq : q ∈ l)
    (hp : pred q = true) (hsle : s ≤ q.id) (hele : q.id ≤ e) :
    preset_find_go s e pred l ≠ none := by
  intro h
  exact preset_find_go_none s e pred l hord hs h q hq ⟨hp, hsle, hele⟩


theorem getD_mem_of_lt (l : List Preset) (i : Nat) (d : Preset) (h : i < l.length) :
    l.getD i d ∈ l := by
  rw [List.getD_eq_getElem?_getD, List.getElem?_eq_getElem h]
  exact List.getElem_mem h

theorem preset_foreach_find_none_iff (presets : List Preset) (lastId s e : Nat)
    (pred : Preset → Bool) (hord : storeOrdered presets) (hs : 1 ≤ s)
    (hbound : ∀ p ∈ presets, p.id ≤ lastId) :
    preset_foreach_find presets lastId s e pred = none ↔
      ∀ q ∈ presets, ¬(pred q = true ∧ s ≤ q.id ∧ q.id ≤ e) := by
  unfold preset_foreach_find
  by_cases hg : s ≤ lastId
  · rw [if_pos hg]
    constructor
    · exact preset_find_go_none s e pred presets hord hs
    · intro hnone
      cases hfind : preset_find_go s e pred presets with
      | none => rfl
      | some v =>
        obtain ⟨_, hgetd, hp, hsle, hele⟩ :=
          preset_find_go_some s e pred presets v.1 v.2 (by rw [hfind])
        have hmem : v.2 ∈ presets := by
          rw [← hgetd]
          exact getD_mem_of_lt presets v.1 zeroPreset (by
            obtain ⟨hlt, _⟩ := preset_find_go_some s e pred presets v.1 v.2 (by rw [hfind])
            exact hlt)
        exact absurd ⟨hp, hsle, hele⟩ (hnone v.2 hmem)
  · rw [if_neg hg]
    constructor
    · intro _ q hq
      rintro ⟨_, hsle, _⟩
      exact hg (Nat.le_trans hsle (hbound q hq))
    · intro _
      rfl


theorem preset_foreach_find_least (presets : List Preset) (lastId s e : Nat)
    (pred : Preset → Bool) (hord : storeOrdered presets) (hs : 1 ≤ s)
    (i : Nat) (p : Preset)
    (h : preset_foreach_find presets lastId s e pred = some (i, p)) :
    ∀ q ∈ presets, pred q = true → s ≤ q.id → q.id ≤ e → p.id ≤ q.id := by
  unfold preset_foreach_find at h
  by_cases hg : s ≤ lastId
  · rw [if_pos hg] at h
    exact preset_find_go_least s e pred presets hord hs i p h
  · rw [if_neg hg] at h
    cases h

/-- C2 (amended): on an id-ordered store, set-next searches ids in
`[active_id + 1, last_preset_id]` ascending (picking the LOWEST qualifying
id), then wraps to `[1, active_id - 1]`; set-previous searches
`[1, active_id - 1]` ascending FIRST (so it also picks the lowest qualifying
id, not the preset just before the active one), then `[active_id + 1,
last_preset_id]`.  Hidden and unavailable presets are skipped.  The current
active preset is never a candidate: when no OTHER available, non-hidden
preset exists — in particular on a store whose only available preset is the
active one — both handlers fail with OPERATION_NOT_POSSIBLE instead of
re-selecting the active preset. -/
theorem handle_set_next_prev_spec (st : ServerState)
    (hord : storeOrdered st.presets)
    (hbound : ∀ p ∈ st.presets, p.id ≤ st.lastPresetId)
    (hpos : ∀ p ∈ st.presets, find_available p = true → 1 ≤ p.id)
    (hact1 : 1 ≤ st.activeId) (hact2 : st.activeId ≤ 254) :
    (handle_set_next_preset st = Except.error AttErr.operationNotPossible ↔
      ∀ p ∈ st.presets, find_available p = true → p.id = st.activeId) ∧
    (∀ r, handle_set_next_preset st = Except.ok r →
      (∃ p, p ∈ st.presets ∧ find_available p = true ∧ p.id = r) ∧
      r ≠ st.activeId ∧
      (st.activeId < r →
        ∀ p ∈ st.presets, find_available p = true → st.activeId < p.id → r ≤ p.id) ∧
      (r < st.activeId →
        (∀ p ∈ st.presets, find_available p = true → p.id ≤ st.activeId) ∧
        (∀ p ∈ st.presets, find_available p = true → p.id < st.activeId → r ≤ p.id))) ∧
    (handle_set_prev_preset st = Except.error AttErr.operationNotPossible ↔
      ∀ p ∈ st.presets, find_available p = true → p.id = st.activeId) ∧
    (∀ r, handle_set_prev_preset st = Except.ok r →
      (∃ p, p ∈ st.presets ∧ find_available p = true ∧ p.id = r) ∧
      r ≠ st.activeId ∧
      (r < st.activeId →
        ∀ p ∈ st.presets, find_available p = true → p.id < st.activeId → r ≤ p.id) ∧
      (st.activeId < r →
        (∀ p ∈ st.presets, find_available p = true → st.activeId ≤ p.id) ∧
        (∀ p ∈ st.presets, find_available p = true → st.activeId < p.id → r ≤ p.id))) := by
  have hm1 : (st.activeId + 1) % 256 = st.activeId + 1 := by omega
  have hm2 : (st.activeId + 255) % 256 = st.activeId - 1 := by omega
  have habove := preset_foreach_find_none_iff st.presets st.lastPresetId
    (st.activeId + 1) st.lastPresetId find_available hord (by omega) hbound
  have hbelow := preset_foreach_find_none_iff st.presets st.lastPresetId
    1 (st.activeId - 1) find_available hord (by omega) hbound
  refine ⟨?_, ?_, ?_, ?_⟩
  · unfold handle_set_next_preset
    rw [hm1, hm2]
    cases hf1 : preset_foreach_find st.presets st.lastPresetId (st.activeId + 1)
        st.lastPresetId find_available with
    | some q =>
      obtain ⟨hlt, hgetd, hp, hsle, hele⟩ := preset_foreach_find_some st.presets
        st.lastPresetId (st.activeId + 1) st.lastPresetId q.1 q.2 hf1
      constructor
      · intro h; cases h
      · intro hall
        have hmem : q.2 ∈ st.presets := by rw [← hgetd]; exact getD_mem_of_lt _ _ _ hlt
        have := hall q.2 hmem hp
        omega
    | none =>
      cases hf2 : preset_foreach_find st.presets st.lastPresetId 1 (st.activeId - 1)
          find_available with
      | some q =>
        obtain ⟨hlt, hgetd, hp, hsle, hele⟩ := preset_foreach_find_some st.presets
          st.lastPresetId 1 (st.activeId - 1) q.1 q.2 hf2
        constructor
        · intro h; cases h
        · intro hall
          have hmem : q.2 ∈ st.presets := by rw [← hgetd]; exact getD_mem_of_lt _ _ _ hlt
          have := hall q.2 hmem hp
          omega
      | none =>
        constructor
        · intro _ p hpmem hpav
          have h1 := habove.mp hf1 p hpmem
          have h2 := hbelow.mp hf2 p hpmem
          have h3 := hbound p hpmem
          have h4 := hpos p hpmem hpav
          push_neg at h1 h2
          have h5 := h1 hpav
          have h6 := h2 hpav
          omega
        · intro _
          rfl
  · intro r hr
    unfold handle_set_next_preset at hr
    rw [hm1, hm2] at hr
    cases hf1 : preset_foreach_find st.presets st.lastPresetId (st.activeId + 1)
        st.lastPresetId find_available with
    | some q =>
      rw [hf1] at hr
      unfold call_ops_set_active_preset at hr
      cases hr
      obtain ⟨hlt, hgetd, hp, hsle, hele⟩ := preset_foreach_find_some st.presets
        st.lastPresetId (st.activeId + 1) st.lastPresetId q.1 q.2 hf1
      have hmem : q.2 ∈ st.presets := by rw [← hgetd]; exact getD_mem_of_lt _ _ _ hlt
      have hleast := preset_foreach_find_least st.presets st.lastPresetId
        (st.activeId + 1) st.lastPresetId find_available hord (by omega) q.1 q.2 hf1
      refine ⟨⟨q.2, hmem, hp, rfl⟩, by omega, ?_, ?_⟩
      · intro _ p hpmem hpav hpgt
        exact hleast p hpmem hpav (by omega) (hbound p hpmem)
      · intro hcontra
        exact absurd hcontra (by omega)
    | none =>
      rw [hf1] at hr
      cases hf2 : preset_foreach_find st.presets st.lastPresetId 1 (st.activeId - 1)
          find_available with
      | some q =>
        rw [hf2] at hr
        unfold call_ops_set_active_preset at hr
        cases hr
        obtain ⟨hlt, hgetd, hp, hsle, hele⟩ := preset_foreach_find_some st.presets
          st.lastPresetId 1 (st.activeId - 1) q.1 q.2 hf2
        have hmem : q.2 ∈ st.presets := by rw [← hgetd]; exact getD_mem_of_lt _ _ _ hlt
        have hleast := preset_foreach_find_least st.presets st.lastPresetId
          1 (st.activeId - 1) find_available hord (by omega) q.1 q.2 hf2
        have hnone1 := habove.mp hf1
        refine ⟨⟨q.2, hmem, hp, rfl⟩, by omega, ?_, ?_⟩
        · intro hcontra
          exact absurd hcontra (by omega)
        · intro _
          constructor
          · intro p hpmem hpav
            have h1 := hnone1 p hpmem
            push_neg at h1
            have := h1 hpav
            have := hbound p hpmem
            omega
          · intro p hpmem hpav hplt
            exact hleast p hpmem hpav (hpos p hpmem hpav) (by omega)
      | none =>
        rw [hf2] at hr
        cases hr
  · unfold handle_set_prev_preset
    rw [hm1, hm2]
    cases hf2 : preset_foreach_find st.presets st.lastPresetId 1 (st.activeId - 1)
        find_available with
    | some q =>
      obtain ⟨hlt, hgetd, hp, hsle, hele⟩ := preset_foreach_find_some st.presets
        st.lastPresetId 1 (st.activeId - 1) q.1 q.2 hf2
      constructor
      · intro h; cases h
      · intro hall
        have hmem : q.2 ∈ st.presets := by rw [← hgetd]; exact getD_mem_of_lt _ _ _ hlt
        have := hall q.2 hmem hp
        omega
    | none =>
      cases hf1 : preset_foreach_find st.presets st.lastPresetId (st.activeId + 1)
          st.lastPresetId find_available with
      | some q =>
        obtain ⟨hlt, hgetd, hp, hsle, hele⟩ := preset_foreach_find_some st.presets
          st.lastPresetId (st.activeId + 1) st.lastPresetId q.1 q.2 hf1
        constructor
        · intro h; cases h
        · intro hall
          have hmem : q.2 ∈ st.presets := by rw [← hgetd]; exact getD_mem_of_lt _ _ _ hlt
          have := hall q.2 hmem hp
          omega
      | none =>
        constructor
        · intro _ p hpmem hpav
          have h1 := habove.mp hf1 p hpmem
          have h2 := hbelow.mp hf2 p hpmem
          have h3 := hbound p hpmem
          have h4 := hpos p hpmem hpav
          push_neg at h1 h2
          have h5 := h1 hpav
          have h6 := h2 hpav
          omega
        · intro _
          rfl
  · intro r hr
    unfold handle_set_prev_preset at hr
    rw [hm1, hm2] at hr
    cases hf2 : preset_foreach_find st.presets st.lastPresetId 1 (st.activeId - 1)
        find_available with
    | some q =>
      rw [hf2] at hr
      unfold call_ops_set_active_preset at hr
      cases hr
      obtain ⟨hlt, hgetd, hp, hsle, hele⟩ := preset_foreach_find_some st.presets
        st.lastPresetId 1 (st.activeId - 1) q.1 q.2 hf2
      have hmem : q.2 ∈ st.presets := by rw [← hgetd]; exact getD_mem_of_lt _ _ _ hlt
      have hleast := preset_foreach_find_least st.presets st.lastPresetId
        1 (st.activeId - 1) find_available hord (by omega) q.1 q.2 hf2
      refine ⟨⟨q.2, hmem, hp, rfl⟩, by omega, ?_, ?_⟩
      · intro _ p hpmem hpav hplt
        exact hleast p hpmem hpav (hpos p hpmem hpav) (by omega)
      · intro hcontra
        exact absurd hcontra (by omega)
    | none =>
      rw [hf2] at hr
      cases hf1 : preset_foreach_find st.presets st.lastPresetId (st.activeId + 1)
          st.lastPresetId find_available with
      | some q =>
        rw [hf1] at hr
        unfold call_ops_set_active_preset at hr
        cases hr
        obtain ⟨hlt, hgetd, hp, hsle, hele⟩ := preset_foreach_find_some st.presets
          st.lastPresetId (st.activeId + 1) st.lastPresetId q.1 q.2 hf1
        have hmem : q.2 ∈ st.presets := by rw [← hgetd]; exact getD_mem_of_lt _ _ _ hlt
        have hleast := preset_foreach_find_least st.presets st.lastPresetId
          (st.activeId + 1) st.lastPresetId find_available hord (by omega) q.1 q.2 hf1
        have hnone2 := hbelow.mp hf2
        refine ⟨⟨q.2, hmem, hp, rfl⟩, by omega, ?_, ?_⟩
        · intro hcontra
          exact absurd hcontra (by omega)
        · intro _
          constructor
          · intro p hpmem hpav
            have h1 := hnone2 p hpmem
            push_neg at h1
            have h4 := hpos p hpmem hpav
            have := h1 hpav h4
            omega
          · intro p hpmem hpav hpgt
            exact hleast p hpmem hpav (by omega) (hbound p hpmem)
      | none =>
        rw [hf1] at hr
        cases hr


def sampleStateSingleActive : ServerState :=
  { presets := [samplePresetVisible], lastPresetId := 1, features := 0,
    activeId := 1, clients := [] }

def mkAvail (i : Nat) : Preset :=
  { id := i, properties := 2, name := [], hidden := false, nameAware := ∅ }

def sampleStateThreePresets : ServerState :=
  { presets := [mkAvail 1, mkAvail 2, mkAvail 3], lastPresetId := 3, features := 0,
    activeId := 3, clients := [] }

/-- C2 counterexample: on a store with exactly one AVAILABLE non-hidden
preset which is the active one, set-next and set-prev return the
OPERATION_NOT_POSSIBLE error, not a successful no-op; moreover, with presets
{1,2,3} all available and active id 3, set-prev selects id 1 (the lowest
below the active id), not 2 (the preset just before it). -/
theorem set_next_prev_single_store_errors :
    handle_set_next_preset sampleStateSingleActive =
      Except.error AttErr.operationNotPossible ∧
    handle_set_prev_preset sampleStateSingleActive =
      Except.error AttErr.operationNotPossible ∧
    find_available samplePresetVisible = true ∧
    sampleStateSingleActive.activeId = samplePresetVisible.id ∧
    handle_set_prev_preset sampleStateThreePresets = Except.ok 1 := by
  exact ⟨rfl, rfl, rfl, rfl, rfl⟩

/-- Witness for C2 (amended) on the concrete single-preset store. -/
theorem handle_set_next_prev_spec_witness :
    handle_set_next_preset sampleStateSingleActive =
      Except.error AttErr.operationNotPossible :=
  (handle_set_next_prev_spec sampleStateSingleActive (by decide) (by decide)
    (by decide) (by decide) (by decide)).1.mpr (by decide)


theorem select_min_param_some_char (lastId : Nat) :
    ∀ (params : List PresetRegisterParam) (acc : Option PresetRegisterParam)
      (pp : PresetRegisterParam),
      (∀ a, acc = some a → lastId < a.id) →
      select_min_param lastId params acc = some pp →
      lastId < pp.id ∧ (pp ∈ params ∨ acc = some pp) ∧
        (∀ q ∈ params, lastId < q.id → pp.id ≤ q.id) ∧
        (∀ a, acc = some a → pp.id ≤ a.id) := by
  intro params
  induction params with
  | nil =>
    intro acc pp hacc h
    unfold select_min_param at h
    refine ⟨hacc pp h, Or.inr h, ?_, ?_⟩
    · intro q hq; cases hq
    · intro a ha
      rw [ha] at h
      cases h
      exact Nat.le_refl _
  | cons tmp rest ih =>
    intro acc pp hacc h
    unfold select_min_param at h
    dsimp only at h
    rcases acc with _ | b
    · by_cases htmp : lastId < tmp.id
      · rw [if_pos (by simp [htmp])] at h
        obtain ⟨g1, g2, g3, g4⟩ := ih (some tmp) pp
          (by intro a ha; cases ha; exact htmp) h
        refine ⟨g1, ?_, ?_, ?_⟩
        · rcases g2 with hmem | heq
          · exact Or.inl (List.mem_cons_of_mem tmp hmem)
          · cases heq
            exact Or.inl (List.mem_cons_self tmp rest)
        · intro q hq hql
          rcases List.mem_cons.mp hq with rfl | hq'
          · exact g4 q rfl
          · exact g3 q hq' hql
        · intro a ha
          cases ha
      · rw [if_neg (by simp [htmp])] at h
        obtain ⟨g1, g2, g3, g4⟩ := ih none pp (by intro a ha; cases ha) h
        refine ⟨g1, ?_, ?_, ?_⟩
        · rcases g2 with hmem | heq
          · exact Or.inl (List.mem_cons_of_mem tmp hmem)
          · cases heq
        · intro q hq hql
          rcases List.mem_cons.mp hq with rfl | hq'
          · exact absurd hql htmp
          · exact g3 q hq' hql
        · intro a ha
          cases ha
    · by_cases hcond : tmp.id < b.id ∧ lastId < tmp.id
      · rw [if_pos (by simp [hcond.1, hcond.2])] at h
        obtain ⟨g1, g2, g3, g4⟩ := ih (some tmp) pp
          (by intro a ha; cases ha; exact hcond.2) h
        have hptmp : pp.id ≤ tmp.id := g4 tmp rfl
        refine ⟨g1, ?_, ?_, ?_⟩
        · rcases g2 with hmem | heq
          · exact Or.inl (List.mem_cons_of_mem tmp hmem)
          · cases heq
            exact Or.inl (List.mem_cons_self tmp rest)
        · intro q hq hql
          rcases List.mem_cons.mp hq with rfl | hq'
          · exact hptmp
          · exact g3 q hq' hql
        · intro a ha
          cases ha
          have := hcond.1
          omega
      · rw [if_neg (by
          simp only [Bool.and_eq_true, decide_eq_true_eq]
          exact hcond)] at h
        obtain ⟨g1, g2, g3, g4⟩ := ih (some b) pp hacc h
        have hpb : pp.id ≤ b.id := g4 b rfl
        refine ⟨g1, ?_, ?_, ?_⟩
        · rcases g2 with hmem | heq
          · exact Or.inl (List.mem_cons_of_mem tmp hmem)
          · exact Or.inr heq
        · intro q hq hql
          rcases List.mem_cons.mp hq with rfl | hq'
          · have hnb : ¬(q.id < b.id) := fun hx => hcond ⟨hx, hql⟩
            omega
          · exact g3 q hq' hql
        · intro a ha
          cases ha
          exact hpb

theorem select_min_param_none_char (lastId : Nat) :
    ∀ (params : List PresetRegisterParam) (acc : Option PresetRegisterParam),
      select_min_param lastId params acc = none →
      acc = none ∧ ∀ q ∈ params, ¬(lastId < q.id) := by
  intro params
  induction params with
  | nil =>
    intro acc h
    unfold select_min_param at h
    exact ⟨h, by intro q hq; cases hq⟩
  | cons tmp rest ih =>
    intro acc h
    unfold select_min_param at h
    dsimp only at h
    rcases acc with _ | b
    · by_cases htmp : lastId < tmp.id
      · rw [if_pos (by simp [htmp])] at h
        obtain ⟨hnone, _⟩ := ih (some tmp) h
        cases hnone
      · rw [if_neg (by simp [htmp])] at h
        obtain ⟨hnone, hall⟩ := ih none h
        refine ⟨rfl, ?_⟩
        intro q hq
        rcases List.mem_cons.mp hq with rfl | hq'
        · exact htmp
        · exact hall q hq'
    · by_cases hcond : tmp.id < b.id ∧ lastId < tmp.id
      · rw [if_pos (by simp [hcond.1, hcond.2])] at h
        obtain ⟨hnone, _⟩ := ih (some tmp) h
        cases hnone
      · rw [if_neg (by
          simp only [Bool.and_eq_true, decide_eq_true_eq]
          exact hcond)] at h
        obtain ⟨hnone, _⟩ := ih (some b) h
        cases hnone


theorem register_fill_ids_gt (params : List PresetRegisterParam) :
    ∀ (n lastId : Nat), ∀ p ∈ (register_fill params n lastId).1, lastId < p.id := by
  intro n
  induction n with
  | zero => intro lastId p hp; cases hp
  | succ m ih =>
    intro lastId p hp
    unfold register_fill at hp
    cases hsel : select_min_param lastId params none with
    | none => rw [hsel] at hp; cases hp
    | some pp =>
      rw [hsel] at hp
      obtain ⟨g1, _, _, _⟩ := select_min_param_some_char lastId params none pp
        (by intro a ha; cases ha) hsel
      rcases List.mem_cons.mp hp with rfl | hp'
      · exact g1
      · have := ih pp.id p hp'
        omega

theorem register_fill_pairwise (params : List PresetRegisterParam) :
    ∀ (n lastId : Nat),
      List.Pairwise (fun p q => p.id < q.id) (register_fill params n lastId).1 := by
  intro n
  induction n with
  | zero => intro lastId; exact List.Pairwise.nil
  | succ m ih =>
    intro lastId
    unfold register_fill
    cases hsel : select_min_param lastId params none with
    | none => exact List.Pairwise.nil
    | some pp =>
      refine List.pairwise_cons.mpr ⟨?_, ih pp.id⟩
      intro q hq
      exact register_fill_ids_gt params m pp.id q hq

theorem register_fill_ids_sub (params : List PresetRegisterParam) :
    ∀ (n lastId : Nat), ∀ p ∈ (register_fill params n lastId).1,
      p.id ∈ params.map (fun x => x.id) := by
  intro n
  induction n with
  | zero => intro lastId p hp; cases hp
  | succ m ih =>
    intro lastId p hp
    unfold register_fill at hp
    cases hsel : select_min_param lastId params none with
    | none => rw [hsel] at hp; cases hp
    | some pp =>
      rw [hsel] at hp
      obtain ⟨_, g2, _, _⟩ := select_min_param_some_char lastId params none pp
        (by intro a ha; cases ha) hsel
      rcases List.mem_cons.mp hp with rfl | hp'
      · rcases g2 with hmem | heq
        · exact List.mem_map_of_mem _ hmem
        · cases heq
      · exact ih pp.id p hp'

theorem register_fill_map_id_perm (params params' : List PresetRegisterParam)
    (hperm : params.Perm params') :
    ∀ (n lastId : Nat),
      (register_fill params n lastId).1.map Preset.id =
        (register_fill params' n lastId).1.map Preset.id := by
  intro n
  induction n with
  | zero => intro lastId; rfl
  | succ m ih =>
    intro lastId
    unfold register_fill
    cases hsel : select_min_param lastId params none with
    | none =>
      cases hsel' : select_min_param lastId params' none with
      | none => rfl
      | some pp' =>
        obtain ⟨_, hall⟩ := select_min_param_none_char lastId params none hsel
        obtain ⟨g1, g2, _, _⟩ := select_min_param_some_char lastId params' none pp'
          (by intro a ha; cases ha) hsel'
        rcases g2 with hmem | heq
        · exact absurd g1 (hall pp' (hperm.symm.subset hmem))
        · cases heq
    | some pp =>
      cases hsel' : select_min_param lastId params' none with
      | none =>
        obtain ⟨_, hall⟩ := select_min_param_none_char lastId params' none hsel'
        obtain ⟨g1, g2, _, _⟩ := select_min_param_some_char lastId params none pp
          (by intro a ha; cases ha) hsel
        rcases g2 with hmem | heq
        · exact absurd g1 (hall pp (hperm.subset hmem))
        · cases heq
      | some pp' =>
        obtain ⟨g1, g2, g3, _⟩ := select_min_param_some_char lastId params none pp
          (by intro a ha; cases ha) hsel
        obtain ⟨g1', g2', g3', _⟩ := select_min_param_some_char lastId params' none pp'
          (by intro a ha; cases ha) hsel'
        have hmem : pp ∈ params := by
          rcases g2 with hmem | heq
          · exact hmem
          · cases heq
        have hmem' : pp' ∈ params' := by
          rcases g2' with hmem | heq
          · exact hmem
          · cases heq
        have hle1 : pp.id ≤ pp'.id := g3 pp' (hperm.symm.subset hmem') g1'
        have hle2 : pp'.id ≤ pp.id := g3' pp (hperm.subset hmem) g1
        have hid : pp.id = pp'.id := Nat.le_antisymm hle1 hle2
        simp only [List.map_cons]
        rw [hid, ih pp'.id]


theorem map_id_set (l : List Preset) :
    ∀ (i : Nat) (q : Preset), q.id = (l.getD i zeroPreset).id →
      (l.set i q).map Preset.id = l.map Preset.id := by
  induction l with
  | nil => intro i q _; rfl
  | cons p rest ih =>
    intro i q h
    cases i with
    | zero =>
      simp only [List.set_cons_zero, List.map_cons]
      rw [show q.id = p.id from h]
    | succ j =>
      simp only [List.set_cons_succ, List.map_cons]
      rw [ih j q h]

theorem storeIds_preset_changed (st : ServerState) (index : Nat) (cid : ChangeId) :
    storeIds (preset_changed st index cid) = storeIds st := rfl

theorem map_id_preset_set_name_aware (l : List Preset) (index ci : Nat) :
    (preset_set_name_aware l index ci).map Preset.id = l.map Preset.id := by
  unfold preset_set_name_aware
  exact map_id_set l index _ rfl

theorem storeIds_preset_name_set (st : ServerState) (id : Nat) (name : List Nat)
    (len : Nat) : storeIds (preset_name_set st id name len).2 = storeIds st := by
  unfold preset_name_set
  split
  · rfl
  · cases hget : preset_get st.presets id with
    | none => rfl
    | some q =>
      dsimp only
      obtain ⟨hlt, hgetd, hpid⟩ := preset_get_go_some id st.presets q.1 q.2 hget
      split
      · rfl
      · split
        · rw [storeIds_preset_changed]
          show (st.presets.set q.1 _).map Preset.id = st.presets.map Preset.id
          exact map_id_set st.presets q.1 _ (by rw [hgetd])
        · show (st.presets.set q.1 _).map Preset.id = st.presets.map Preset.id
          exact map_id_set st.presets q.1 _ (by rw [hgetd])

theorem storeIds_availability_set (st : ServerState) (id : Nat) (avail : Bool) :
    storeIds (bt_has_preset_availability_set st id avail).2 = storeIds st := by
  unfold bt_has_preset_availability_set
  cases hget : preset_get st.presets id with
  | none => rfl
  | some q =>
    dsimp only
    obtain ⟨hlt, hgetd, hpid⟩ := preset_get_go_some id st.presets q.1 q.2 hget
    split
    · split
      · rw [storeIds_preset_changed]
        show (st.presets.set q.1 _).map Preset.id = st.presets.map Preset.id
        exact map_id_set st.presets q.1 _ (by rw [hgetd])
      · show (st.presets.set q.1 _).map Preset.id = st.presets.map Preset.id
        exact map_id_set st.presets q.1 _ (by rw [hgetd])
    · rfl

theorem storeIds_visibility_set (st : ServerState) (id : Nat) (visible : Bool) :
    storeIds (bt_has_preset_visibility_set st id visible).2 = storeIds st := by
  unfold bt_has_preset_visibility_set
  cases hget : preset_get st.presets id with
  | none => rfl
  | some q =>
    dsimp only
    obtain ⟨hlt, hgetd, hpid⟩ := preset_get_go_some id st.presets q.1 q.2 hget
    split
    · rw [storeIds_preset_changed]
      show (st.presets.set q.1 _).map Preset.id = st.presets.map Preset.id
      exact map_id_set st.presets q.1 _ (by rw [hgetd])
    · rfl

theorem storeIds_active_set (st : ServerState) (id : Nat) :
    storeIds (bt_has_preset_active_set st id).2.1 = storeIds st := by
  unfold bt_has_preset_active_set
  split
  · rfl
  · split
    · rfl
    · rfl

theorem storeIds_process_tx_work (st : ServerState) (ci : Nat) :
    storeIds (process_control_point_tx_work st ci).1 = storeIds st := by
  unfold process_control_point_tx_work
  dsimp only
  split
  · rfl
  · split
    · split
      · rfl
      · split
        · rfl
        · exact map_id_preset_set_name_aware st.presets _ ci
    · split
      · split
        · rfl
        · split
          · rfl
          · exact map_id_preset_set_name_aware st.presets _ ci
      · rfl

theorem storeIds_client_free (st : ServerState) (i : Nat) :
    storeIds (client_free st i) = storeIds st := by
  unfold client_free storeIds
  dsimp only
  rw [List.map_map]
  exact List.map_congr_left (fun p _ => rfl)

theorem storeIds_disconnected (st : ServerState) (conn : Nat) :
    storeIds (disconnected st conn) = storeIds st := by
  unfold disconnected
  cases client_find st.clients conn with
  | none => rfl
  | some i => exact storeIds_client_free st i


/-- Ids of the presets filled in by `bt_has_register`, in storage order. -/
def registerIds (cnt : Nat) (params : List PresetRegisterParam) : List Nat :=
  (register_fill params cnt 0).1.map Preset.id

/-- C9: `bt_has_register` stores the caller's preset records in strictly
ascending id order regardless of the input order (the selection sort keeps
picking the smallest id strictly above `last_preset_id`, so duplicate ids are
dropped and at most `cnt` records are kept, the rest of the array staying
zeroed); the resulting id sequence is invariant under permutation of the
input and drawn from the input ids; and every subsequent operation
(name set, availability set, visibility set, active set, preset-changed,
the transmit work, disconnect) preserves the stored id sequence — ids are
assigned once and never renumbered. -/
theorem bt_has_register_ascending_ids (cnt : Nat)
    (params params' : List PresetRegisterParam) :
    (bt_has_register cnt params 0).presets =
      (register_fill params cnt 0).1 ++
        List.replicate (cnt - (register_fill params cnt 0).1.length) zeroPreset ∧
    List.Pairwise (· < ·) (registerIds cnt params) ∧
    (params.Perm params' → registerIds cnt params = registerIds cnt params') ∧
    (∀ x ∈ registerIds cnt params, x ∈ params.map (fun pp => pp.id)) ∧
    (∀ (st : ServerState) (id : Nat) (name : List Nat) (len : Nat) (avail visible : Bool)
        (index : Nat) (cid : ChangeId) (ci conn : Nat),
      storeIds (preset_name_set st id name len).2 = storeIds st ∧
      storeIds (bt_has_preset_availability_set st id avail).2 = storeIds st ∧
      storeIds (bt_has_preset_visibility_set st id visible).2 = storeIds st ∧
      storeIds (bt_has_preset_active_set st id).2.1 = storeIds st ∧
      storeIds (preset_changed st index cid) = storeIds st ∧
      storeIds (process_control_point_tx_work st ci).1 = storeIds st ∧
      storeIds (disconnected st conn) = storeIds st) := by
  refine ⟨rfl, ?_, ?_, ?_, ?_⟩
  · exact List.pairwise_map.mpr (register_fill_pairwise params cnt 0)
  · intro hperm
    exact register_fill_map_id_perm params params' hperm cnt 0
  · intro x hx
    unfold registerIds at hx
    obtain ⟨p, hp, rfl⟩ := List.mem_map.mp hx
    exact register_fill_ids_sub params cnt 0 p hp
  · intro st id name len avail visible index cid ci conn
    exact ⟨storeIds_preset_name_set st id name len,
      storeIds_availability_set st id avail,
      storeIds_visibility_set st id visible,
      storeIds_active_set st id,
      storeIds_preset_changed st index cid,
      storeIds_process_tx_work st ci,
      storeIds_disconnected st conn⟩

/-- A register record with the given id. -/
def regp (i : Nat) : PresetRegisterParam :=
  { id := i, properties := 1, name := [i] }

/-- Witness for C9: a concrete out-of-order registration with a duplicate,
permuted, gives the same strictly ascending id sequence. -/
theorem bt_has_register_ascending_ids_witness :
    registerIds 5 [regp 9, regp 3, regp 7, regp 3, regp 1] =
      registerIds 5 [regp 1, regp 3, regp 9, regp 7, regp 3] ∧
    List.Pairwise (· < ·) (registerIds 5 [regp 9, regp 3, regp 7, regp 3, regp 1]) := by
  have h := bt_has_register_ascending_ids 5 [regp 9, regp 3, regp 7, regp 3, regp 1]
    [regp 1, regp 3, regp 9, regp 7, regp 3]
  exact ⟨h.2.2.1 (by decide), h.2.1⟩


theorem getD_drop_nat (l : List Nat) (n i : Nat) :
    (l.drop n).getD i 0 = l.getD (n + i) 0 := by
  simp [List.getD_eq_getElem?_getD, List.getElem?_drop]

theorem clients_set_getD (cl : List Client) (ci : Nat) (c : Client)
    (h : ci < cl.length) : (cl.set ci c).getD ci zeroClient = c := by
  simp [List.getD_eq_getElem?_getD, List.getElem?_set_self h]

theorem control_point_rx_read_req_cases (st : ServerState) (conn ci : Nat)
    (data : List Nat) (c : Client)
    (hfc : client_find st.clients conn = some ci)
    (hc : c = st.clients.getD ci zeroClient)
    (hop : data.getD 0 0 = OP_READ_PRESET_REQ)
    (hlen : 3 ≤ data.length) :
    (c.indEnabled = false →
      control_point_rx st conn data 0 = (Except.error AttErr.cccImproperConf, st)) ∧
    (c.indEnabled = true → c.attMtuValid = false →
      control_point_rx st conn data 0 = (Except.error AttErr.insufficientResources, st)) ∧
    (c.indEnabled = true → c.attMtuValid = true →
      is_read_preset_rsp_pending c = true →
      control_point_rx st conn data 0 = (Except.error AttErr.operationNotPossible, st)) ∧
    (c.indEnabled = true → c.attMtuValid = true →
      is_read_preset_rsp_pending c = false →
      (data.getD 2 0 = 0 ∨
        preset_foreach_find st.presets st.lastPresetId (data.getD 1 0)
          st.lastPresetId find_visible = none) →
      (control_point_rx st conn data 0).1 = Except.error AttErr.outOfRange) ∧
    (∀ q, c.indEnabled = true → c.attMtuValid = true →
      is_read_preset_rsp_pending c = false →
      0 < data.getD 2 0 →
      preset_foreach_find st.presets st.lastPresetId (data.getD 1 0)
          st.lastPresetId find_visible = some q →
      control_point_rx st conn data 0 =
        (Except.ok data.length,
          { st with clients := st.clients.set ci (control_point_tx_work_submit
              { c with readPending := some q.1, readNum := data.getD 2 0 }
              CP_WORK_TIMEOUT) })) := by
  have hoff : ¬(0 < 0) := by omega
  have hlen1 : ¬(data.length < 1) := by omega
  have hbuf0 : (data.drop 1).getD 0 0 = data.getD 1 0 := getD_drop_nat data 1 0
  have hbuf1 : (data.drop 1).getD 1 0 = data.getD 2 0 := getD_drop_nat data 1 1
  have hbuflen : ¬((data.drop 1).length < 2) := by
    rw [List.length_drop]
    omega
  refine ⟨?_, ?_, ?_, ?_, ?_⟩
  · intro hind
    unfold control_point_rx
    rw [hfc]
    dsimp only
    rw [if_neg hoff, if_neg hlen1, if_pos hop, ← hc]
    rw [if_pos (by simp [hind])]
  · intro hind hmtu
    unfold control_point_rx
    rw [hfc]
    dsimp only
    rw [if_neg hoff, if_neg hlen1, if_pos hop, ← hc]
    rw [if_neg (by simp [hind]), if_pos (by simp [hmtu])]
  · intro hind hmtu hpend
    unfold control_point_rx
    rw [hfc]
    dsimp only
    rw [if_neg hoff, if_neg hlen1, if_pos hop, ← hc]
    rw [if_neg (by simp [hind]), if_neg (by simp [hmtu])]
    unfold handle_read_preset_req
    rw [← hc, if_neg hbuflen, if_pos hpend]
  · intro hind hmtu hpend hnone
    unfold control_point_rx
    rw [hfc]
    dsimp only
    rw [if_neg hoff, if_neg hlen1, if_pos hop, ← hc]
    rw [if_neg (by simp [hind]), if_neg (by simp [hmtu])]
    unfold handle_read_preset_req
    rw [← hc, if_neg hbuflen, if_neg (by simp [hpend])]
    dsimp only
    rw [hbuf0, hbuf1]
    rcases hnone with hzero | hfnone
    · rw [hzero]
      rfl
    · by_cases hz : 0 < data.getD 2 0
      · rw [if_pos hz, hfnone]
      · rw [if_neg hz]
  · intro q hind hmtu hpend hnum hfind
    unfold control_point_rx
    rw [hfc]
    dsimp only
    rw [if_neg hoff, if_neg hlen1, if_pos hop, ← hc]
    rw [if_neg (by simp [hind]), if_neg (by simp [hmtu])]
    unfold handle_read_preset_req
    rw [← hc, if_neg hbuflen, if_neg (by simp [hpend])]
    dsimp only
    rw [hbuf0, hbuf1, if_pos hnum, hfind]


/-- The preset "Universal" (id 1, writable+available) of the end-to-end
scenario. -/
def presetUniversal : Preset :=
  { id := 1, properties := 3, name := [85, 110], hidden := false, nameAware := ∅ }

/-- The preset "Outdoor" (id 5, writable+available) of the end-to-end
scenario. -/
def presetOutdoor : Preset :=
  { id := 5, properties := 3, name := [79, 117], hidden := false, nameAware := ∅ }

/-- The {1, 5} store with a subscribed, MTU-valid, connected client. -/
def sampleStateTwoPresets : ServerState :=
  { presets := [presetUniversal, presetOutdoor], lastPresetId := 5, features := 0,
    activeId := 0,
    clients := [{ sampleClientSub with
      changeId := [ChangeId.genericUpdate, ChangeId.genericUpdate] }] }

/-- Like `sampleStateTwoPresets` but the client's ATT MTU has not been
validated. -/
def sampleStateTwoPresetsNoMtu : ServerState :=
  { sampleStateTwoPresets with
    clients := [{ sampleClientSub with
      changeId := [ChangeId.genericUpdate, ChangeId.genericUpdate],
      attMtuValid := false }] }

/-- C4 (amended): an incoming READ_PRESET_REQ write is rejected with
CCC_IMPROPER_CONF unless the peer subscribed to indications, and — additional
to the claim — rejected with INSUFFICIENT_RESOURCES when the link's ATT MTU
has not been validated (>= 49); it fails with OPERATION_NOT_POSSIBLE if a
read-response sequence is already pending for this peer; it fails with
OUT_OF_RANGE if num_presets is 0 or no visible entry matches the starting id;
otherwise it is accepted (the consumed length is returned, no error), the
read state (first matching preset and requested count) is captured and, if
the peer was not already busy, the transmit work is armed with the 10 ms
coalescing delay. -/
theorem read_preset_req_handling (st : ServerState) (conn ci : Nat)
    (data : List Nat) (c : Client)
    (hfc : client_find st.clients conn = some ci)
    (hc : c = st.clients.getD ci zeroClient)
    (hop : data.getD 0 0 = OP_READ_PRESET_REQ)
    (hlen : 3 ≤ data.length) :
    (c.indEnabled = false →
      control_point_rx st conn data 0 = (Except.error AttErr.cccImproperConf, st)) ∧
    (c.indEnabled = true → c.attMtuValid = false →
      control_point_rx st conn data 0 =
        (Except.error AttErr.insufficientResources, st)) ∧
    (c.indEnabled = true → c.attMtuValid = true →
      is_read_preset_rsp_pending c = true →
      control_point_rx st conn data 0 =
        (Except.error AttErr.operationNotPossible, st)) ∧
    (c.indEnabled = true → c.attMtuValid = true →
      is_read_preset_rsp_pending c = false →
      (data.getD 2 0 = 0 ∨
        preset_foreach_find st.presets st.lastPresetId (data.getD 1 0)
          st.lastPresetId find_visible = none) →
      (control_point_rx st conn data 0).1 = Except.error AttErr.outOfRange) ∧
    (∀ q, c.indEnabled = true → c.attMtuValid = true →
      is_read_preset_rsp_pending c = false →
      0 < data.getD 2 0 →
      preset_foreach_find st.presets st.lastPresetId (data.getD 1 0)
          st.lastPresetId find_visible = some q →
      (control_point_rx st conn data 0).1 = Except.ok data.length ∧
      ((control_point_rx st conn data 0).2.clients.getD ci zeroClient).readPending =
        some q.1 ∧
      ((control_point_rx st conn data 0).2.clients.getD ci zeroClient).readNum =
        data.getD 2 0 ∧
      (c.busy = false →
        ((control_point_rx st conn data 0).2.clients.getD ci zeroClient).busy = true ∧
        ((control_point_rx st conn data 0).2.clients.getD ci zeroClient).scheduled =
          some CP_WORK_TIMEOUT)) := by
  have h := control_point_rx_read_req_cases st conn ci data c hfc hc hop hlen
  obtain ⟨hlt, _⟩ := client_find_go_some conn st.clients ci hfc
  refine ⟨h.1, h.2.1, h.2.2.1, h.2.2.2.1, ?_⟩
  intro q hind hmtu hpend hnum hfind
  have h5 := h.2.2.2.2 q hind hmtu hpend hnum hfind
  rw [h5]
  dsimp only
  rw [clients_set_getD st.clients ci _ hlt]
  refine ⟨rfl, submit_readPending_eq _ _, submit_readNum_eq _ _, ?_⟩
  intro hbusy
  unfold control_point_tx_work_submit
  have : ({ c with readPending := some q.1, readNum := data.getD 2 0 } : Client).busy
      = false := hbusy
  rw [if_neg (by rw [this]; exact Bool.false_ne_true)]
  exact ⟨rfl, rfl⟩

/-- C4 counterexample: a peer subscribed to indications, with no pending read
and a visible preset matching the starting id, is still rejected (with
INSUFFICIENT_RESOURCES) when its ATT MTU has not been validated — contradicting
the claim that such a request is accepted ("otherwise the handler accepts the
write"). -/
theorem read_preset_req_mtu_invalid_rejected :
    (control_point_rx sampleStateTwoPresetsNoMtu 7 [1, 1, 2] 0).1 =
      Except.error AttErr.insufficientResources ∧
    (sampleStateTwoPresetsNoMtu.clients.getD 0 zeroClient).indEnabled = true ∧
    is_read_preset_rsp_pending (sampleStateTwoPresetsNoMtu.clients.getD 0 zeroClient)
      = false ∧
    (preset_foreach_find sampleStateTwoPresetsNoMtu.presets 5 1 5
      find_visible).isSome = true := by
  refine ⟨rfl, by decide, by decide, by decide⟩

/-- Witness for C4 (amended): the concrete accepted request on the {1,5}
store, with the 10 ms delay armed. -/
theorem read_preset_req_handling_witness :
    (control_point_rx sampleStateTwoPresets 7 [1, 1, 2] 0).1 = Except.ok 3 ∧
    ((control_point_rx sampleStateTwoPresets 7 [1, 1, 2] 0).2.clients.getD 0
      zeroClient).scheduled = some CP_WORK_TIMEOUT := by
  have h := (read_preset_req_handling sampleStateTwoPresets 7 0 [1, 1, 2]
    (sampleStateTwoPresets.clients.getD 0 zeroClient) (by decide) rfl (by decide)
    (by decide)).2.2.2.2 (0, presetUniversal) (by decide) (by decide) (by decide)
    (by decide) (by decide)
  exact ⟨h.1, (h.2.2.2 (by decide)).2⟩


/-- The transmission-relevant fields of a preset (everything except the
name-awareness bitset): id, properties, name, hidden. -/
def presetShape (p : Preset) : Nat × Nat × List Nat × Bool :=
  (p.id, p.properties, p.name, p.hidden)

/-- The pure unfolding of the read-response drain: one `READ_PRESET_RSP`
frame per work invocation, fetching the next visible preset (from the
preset after the current one) while more than one requested preset remains,
with `is_last` set exactly when no next preset is pending. -/
def read_frames (presets : List Preset) (lastId : Nat) :
    Nat → Option Nat → List ReadPresetRsp
  | 0, _ => []
  | _ + 1, none => []
  | n + 1, some i =>
    let p := presets.getD i zeroPreset
    let next :=
      if 1 < n + 1 then
        preset_foreach_find presets lastId (p.id + 1) lastId find_visible
      else none
    { isLast := next.isNone, id := p.id, properties := p.properties, name := p.name } ::
      read_frames presets lastId n (next.map Prod.fst)

theorem map_preset_set {β : Type} (f : Preset → β) (l : List Preset) :
    ∀ (i : Nat) (q : Preset), f q = f (l.getD i zeroPreset) →
      (l.set i q).map f = l.map f := by
  induction l with
  | nil => intro i q _; rfl
  | cons p rest ih =>
    intro i q h
    cases i with
    | zero =>
      simp only [List.set_cons_zero, List.map_cons]
      rw [show f q = f p from h]
    | succ j =>
      simp only [List.set_cons_succ, List.map_cons]
      rw [ih j q h]

theorem shape_preset_set_name_aware (l : List Preset) (index ci : Nat) :
    (preset_set_name_aware l index ci).map presetShape = l.map presetShape := by
  unfold preset_set_name_aware
  exact map_preset_set presetShape l index _ rfl

theorem getD_map_shape (l : List Preset) :
    ∀ i : Nat, (l.map presetShape).getD i (presetShape zeroPreset) =
      presetShape (l.getD i zeroPreset) := by
  induction l with
  | nil => intro i; cases i <;> rfl
  | cons p rest ih =>
    intro i
    cases i with
    | zero => rfl
    | succ j => exact ih j

theorem shape_getD_eq (l l' : List Preset)
    (h : l.map presetShape = l'.map presetShape) (i : Nat) :
    presetShape (l.getD i zeroPreset) = presetShape (l'.getD i zeroPreset) := by
  rw [← getD_map_shape l i, ← getD_map_shape l' i, h]

theorem preset_find_go_visible_shape (s e : Nat) :
    ∀ (l l' : List Preset), l.map presetShape = l'.map presetShape →
      (preset_find_go s e find_visible l).map Prod.fst =
        (preset_find_go s e find_visible l').map Prod.fst := by
  intro l
  induction l with
  | nil =>
    intro l' h
    cases l' with
    | nil => rfl
    | cons p' rest' => cases h
  | cons p rest ih =>
    intro l' h
    cases l' with
    | nil => cases h
    | cons p' rest' =>
      simp only [List.map_cons, List.cons.injEq] at h
      obtain ⟨hsh, hrest⟩ := h
      have hid : p.id = p'.id := congrArg Prod.fst hsh
      have hhid : p.hidden = p'.hidden :=
        congrArg (fun x => x.2.2.2) hsh
      have hvis : find_visible p = find_visible p' := by
        unfold find_visible
        rw [hhid]
      have hcomp : ∀ (o : Option (Nat × Preset)),
          (o.map (fun q => (q.1 + 1, q.2))).map Prod.fst =
            (o.map Prod.fst).map (fun x => x + 1) := by
        intro o; cases o <;> rfl
      unfold preset_find_go
      by_cases h1 : p.id < s
      · have h1' : p'.id < s := by rw [← hid]; exact h1
        rw [if_pos h1, if_pos h1']
        rw [hcomp, hcomp, ih rest' hrest]
      · have h1' : ¬(p'.id < s) := by rw [← hid]; exact h1
        rw [if_neg h1, if_neg h1']
        by_cases h2 : e < p.id
        · have h2' : e < p'.id := by rw [← hid]; exact h2
          rw [if_pos h2, if_pos h2']
        · have h2' : ¬(e < p'.id) := by rw [← hid]; exact h2
          rw [if_neg h2, if_neg h2']
          by_cases h3 : find_visible p = true
          · have h3' : find_visible p' = true := by rw [← hvis]; exact h3
            rw [if_pos h3, if_pos h3']
            rfl
          · have h3' : ¬(find_visible p' = true) := by rw [← hvis]; exact h3
            rw [if_neg h3, if_neg h3']
            rw [hcomp, hcomp, ih rest' hrest]

theorem preset_foreach_find_visible_shape (l l' : List Preset)
    (h : l.map presetShape = l'.map presetShape) (lastId s e : Nat) :
    (preset_foreach_find l lastId s e find_visible).map Prod.fst =
      (preset_foreach_find l' lastId s e find_visible).map Prod.fst := by
  unfold preset_foreach_find
  split
  · exact preset_find_go_visible_shape s e l l' h
  · rfl


theorem read_frames_none (presets : List Preset) (lastId : Nat) :
    ∀ n : Nat, read_frames presets lastId n none = [] := by
  intro n
  cases n <;> rfl

theorem read_frames_some_ne_nil (presets : List Preset) (lastId n i : Nat) :
    read_frames presets lastId (n + 1) (some i) ≠ [] := by
  unfold read_frames
  exact List.cons_ne_nil _ _

theorem read_frames_head_id (presets : List Preset) (lastId n i : Nat)
    (fr : ReadPresetRsp) (rest : List ReadPresetRsp)
    (h : read_frames presets lastId (n + 1) (some i) = fr :: rest) :
    fr.id = (presets.getD i zeroPreset).id := by
  unfold read_frames at h
  cases h
  rfl

theorem read_frames_chain (presets : List Preset) (lastId : Nat) :
    ∀ (n : Nat) (opt : Option Nat),
      List.Chain' (fun a b => a.id < b.id) (read_frames presets lastId n opt) := by
  intro n
  induction n with
  | zero => intro opt; exact List.chain'_nil
  | succ m ih =>
    intro opt
    cases opt with
    | none => exact List.chain'_nil
    | some i =>
      unfold read_frames
      dsimp only
      refine List.chain'_cons'.mpr ⟨?_, ih _⟩
      intro b hb
      cases hnext : (if 1 < m + 1 then
          preset_foreach_find presets lastId ((presets.getD i zeroPreset).id + 1)
            lastId find_visible
        else none) with
      | none =>
        rw [hnext] at hb
        rw [show (none : Option (Nat × Preset)).map Prod.fst = none from rfl,
          read_frames_none] at hb
        cases hb
      | some q =>
        rw [hnext] at hb
        have hle : (presets.getD i zeroPreset).id + 1 ≤ q.2.id := by
          by_cases hm : 1 < m + 1
          · rw [if_pos hm] at hnext
            exact (preset_foreach_find_some presets lastId _ lastId q.1 q.2 hnext).2.2.2.1
          · rw [if_neg hm] at hnext
            cases hnext
        cases m with
        | zero =>
          rw [show read_frames presets lastId 0 ((some q).map Prod.fst) = []
            from rfl] at hb
          cases hb
        | succ m2 =>
          cases hfr : read_frames presets lastId (m2 + 1) ((some q).map Prod.fst) with
          | nil =>
            rw [hfr] at hb
            cases hb
          | cons fr2 rest2 =>
            rw [hfr] at hb
            simp only [List.head?_cons, Option.mem_def, Option.some.injEq] at hb
            have hgd : q.2.id = (presets.getD q.1 zeroPreset).id := by
              by_cases hm : 1 < m2 + 1 + 1
              · rw [if_pos hm] at hnext
                have := (preset_foreach_find_some presets lastId _ lastId q.1 q.2 hnext).2.1
                rw [this]
              · rw [if_neg hm] at hnext
                cases hnext
            have hfr2 := read_frames_head_id presets lastId m2 q.1 fr2 rest2 hfr
            rw [← hb, hfr2, ← hgd]
            show (presets.getD i zeroPreset).id < q.2.id
            omega

theorem read_frames_isLast (presets : List Preset) (lastId : Nat) :
    ∀ (n : Nat) (opt : Option Nat),
      read_frames presets lastId n opt = [] ∨
      (read_frames presets lastId n opt).map (fun fr => fr.isLast) =
        List.replicate ((read_frames presets lastId n opt).length - 1) false ++
          [true] := by
  intro n
  induction n with
  | zero => intro opt; exact Or.inl rfl
  | succ m ih =>
    intro opt
    cases opt with
    | none => exact Or.inl rfl
    | some i =>
      right
      unfold read_frames
      dsimp only
      cases hnext : (if 1 < m + 1 then
          preset_foreach_find presets lastId ((presets.getD i zeroPreset).id + 1)
            lastId find_visible
        else none) with
      | none =>
        rw [show (none : Option (Nat × Preset)).map Prod.fst = none from rfl,
          read_frames_none]
        rfl
      | some q =>
        have hm : 1 < m + 1 := by
          by_contra hcon
          rw [if_neg hcon] at hnext
          cases hnext
        have hm1 : 1 ≤ m := by omega
        cases m with
        | zero => omega
        | succ m2 =>
          rcases ih (some q.1) with hnil | hpat
          · exact absurd hnil (read_frames_some_ne_nil presets lastId m2 q.1)
          · show (false :: _) = _
            rw [show ((some q).map Prod.fst) = some q.1 from rfl] at *
            rw [hpat]
            cases hlen : read_frames presets lastId (m2 + 1) (some q.1) with
            | nil => exact absurd hlen (read_frames_some_ne_nil presets lastId m2 q.1)
            | cons a rest =>
              simp [List.replicate_succ]

theorem read_frames_visible (presets : List Preset) (lastId : Nat) :
    ∀ (n i : Nat), i < presets.length →
      find_visible (presets.getD i zeroPreset) = true →
      ∀ fr ∈ read_frames presets lastId n (some i),
        ∃ p, p ∈ presets ∧ find_visible p = true ∧ fr.id = p.id ∧
          fr.properties = p.properties ∧ fr.name = p.name := by
  intro n
  induction n with
  | zero => intro i _ _ fr hfr; cases hfr
  | succ m ih =>
    intro i hi hvis fr hfr
    unfold read_frames at hfr
    dsimp only at hfr
    rcases List.mem_cons.mp hfr with rfl | hfr'
    · exact ⟨presets.getD i zeroPreset, getD_mem_of_lt presets i zeroPreset hi,
        hvis, rfl, rfl, rfl⟩
    · cases hnext : (if 1 < m + 1 then
          preset_foreach_find presets lastId ((presets.getD i zeroPreset).id + 1)
            lastId find_visible
        else none) with
      | none =>
        rw [hnext] at hfr'
        rw [show (none : Option (Nat × Preset)).map Prod.fst = none from rfl,
          read_frames_none] at hfr'
        cases hfr'
      | some q =>
        rw [hnext] at hfr'
        have hsome : preset_foreach_find presets lastId
            ((presets.getD i zeroPreset).id + 1) lastId find_visible = some q := by
          by_cases hm : 1 < m + 1
          · rw [if_pos hm] at hnext; exact hnext
          · rw [if_neg hm] at hnext; cases hnext
        obtain ⟨hlt, hgetd, hp, _, _⟩ := preset_foreach_find_some presets lastId _
          lastId q.1 q.2 hsome
        exact ih q.1 hlt (by rw [hgetd]; exact hp) fr hfr'


theorem control_point_tx_ok (c : Client)
    (h : c.nfyEnabled = true ∨ c.indEnabled = true) :
    ∃ g, control_point_tx c = Except.ok g := by
  unfold control_point_tx
  by_cases hn : c.nfyEnabled = true
  · exact ⟨_, by rw [if_pos hn]⟩
  · rcases h with h | h
    · exact absurd h hn
    · exact ⟨_, by rw [if_neg hn, if_pos h]⟩

theorem submit_flag_fields (c : Client) (d : Nat) :
    (control_point_tx_work_submit c d).conn = c.conn ∧
    (control_point_tx_work_submit c d).connected = c.connected ∧
    (control_point_tx_work_submit c d).indEnabled = c.indEnabled ∧
    (control_point_tx_work_submit c d).nfyEnabled = c.nfyEnabled := by
  unfold control_point_tx_work_submit
  split <;> exact ⟨rfl, rfl, rfl, rfl⟩

theorem cond_submit_fields (k : Client) (b : Prop) [Decidable b] (d : Nat) :
    (if b then control_point_tx_work_submit k d else k).conn = k.conn ∧
    (if b then control_point_tx_work_submit k d else k).connected = k.connected ∧
    (if b then control_point_tx_work_submit k d else k).indEnabled = k.indEnabled ∧
    (if b then control_point_tx_work_submit k d else k).nfyEnabled = k.nfyEnabled ∧
    (if b then control_point_tx_work_submit k d else k).pending = k.pending ∧
    (if b then control_point_tx_work_submit k d else k).readPending = k.readPending ∧
    (if b then control_point_tx_work_submit k d else k).readNum = k.readNum := by
  split
  · exact ⟨(submit_flag_fields k d).1, (submit_flag_fields k d).2.1,
      (submit_flag_fields k d).2.2.1, (submit_flag_fields k d).2.2.2,
      submit_pending_eq k d, submit_readPending_eq k d, submit_readNum_eq k d⟩
  · exact ⟨rfl, rfl, rfl, rfl, rfl, rfl, rfl⟩


theorem cp_tx_drain_read_frames (base : List Preset) (lastId : Nat) :
    ∀ (n fuel : Nat) (st : ServerState) (ci : Nat) (opt : Option Nat),
      st.presets.map presetShape = base.map presetShape →
      st.lastPresetId = lastId →
      n ≤ fuel →
      ci < st.clients.length →
      (st.clients.getD ci zeroClient).conn.isSome = true →
      (st.clients.getD ci zeroClient).connected = true →
      ((st.clients.getD ci zeroClient).nfyEnabled = true ∨
        (st.clients.getD ci zeroClient).indEnabled = true) →
      (st.clients.getD ci zeroClient).pending = ∅ →
      (st.clients.getD ci zeroClient).readPending = opt →
      (st.clients.getD ci zeroClient).readNum = n →
      cp_tx_drain ci fuel st = (read_frames base lastId n opt).map Frame.read := by
  intro n
  induction n with
  | zero =>
    intro fuel st ci opt hshape hlast hfuel hci hconn hcd hsub hpend hrp hrn
    have hnr : is_read_preset_rsp_pending (st.clients.getD ci zeroClient) = false := by
      unfold is_read_preset_rsp_pending
      rw [hrn]
      simp
    have hnc : is_preset_changed_pending (st.clients.getD ci zeroClient) = false := by
      unfold is_preset_changed_pending
      rw [hpend]
      simp
    have hrhs : read_frames base lastId 0 opt = [] := rfl
    rw [hrhs]
    cases fuel with
    | zero => rfl
    | succ f =>
      unfold cp_tx_drain
      dsimp only
      rw [hnr, hnc]
      rfl
  | succ m ih =>
    intro fuel st ci opt hshape hlast hfuel hci hconn hcd hsub hpend hrp hrn
    cases opt with
    | none =>
      have hnr : is_read_preset_rsp_pending (st.clients.getD ci zeroClient) = false := by
        unfold is_read_preset_rsp_pending
        rw [hrp]
        rfl
      have hnc : is_preset_changed_pending (st.clients.getD ci zeroClient) = false := by
        unfold is_preset_changed_pending
        rw [hpend]
        simp
      rw [read_frames_none]
      cases fuel with
      | zero => rfl
      | succ f =>
        unfold cp_tx_drain
        dsimp only
        rw [hnr, hnc]
        rfl
    | some i =>
      cases fuel with
      | zero => omega
      | succ f =>
        have hr : is_read_preset_rsp_pending (st.clients.getD ci zeroClient) = true := by
          unfold is_read_preset_rsp_pending
          rw [hrp, hrn]
          simp
        have hisnone : ∀ (o : Option (Nat × Preset)), (o.map Prod.fst).isNone = o.isNone := by
          intro o; cases o <;> rfl
        unfold cp_tx_drain
        dsimp only
        rw [hr]
        rw [if_pos (by rw [Bool.true_or])]
        unfold process_control_point_tx_work
        dsimp only
        rw [if_neg (by rw [hconn, hcd]; decide), if_pos hr, hrp]
        dsimp only
        obtain ⟨g, hg⟩ := control_point_tx_ok
          { conn := (st.clients.getD ci zeroClient).conn,
            connected := (st.clients.getD ci zeroClient).connected,
            encrypted := (st.clients.getD ci zeroClient).encrypted,
            attMtuValid := (st.clients.getD ci zeroClient).attMtuValid,
            indEnabled := (st.clients.getD ci zeroClient).indEnabled,
            nfyEnabled := (st.clients.getD ci zeroClient).nfyEnabled,
            busy := (st.clients.getD ci zeroClient).busy,
            scheduled := (st.clients.getD ci zeroClient).scheduled,
            pending := (st.clients.getD ci zeroClient).pending,
            changeId := (st.clients.getD ci zeroClient).changeId,
            readPending := Option.map Prod.fst
              (if 1 < (st.clients.getD ci zeroClient).readNum then
                preset_foreach_find st.presets st.lastPresetId
                  ((st.presets.getD i zeroPreset).id + 1) st.lastPresetId find_visible
              else none),
            readNum := (st.clients.getD ci zeroClient).readNum - 1 }
          (by exact hsub)
        rw [hg]
        dsimp only
        have hshget := shape_getD_eq st.presets base hshape i
        have hid : (st.presets.getD i zeroPreset).id = (base.getD i zeroPreset).id :=
          congrArg Prod.fst hshget
        have hprops : (st.presets.getD i zeroPreset).properties =
            (base.getD i zeroPreset).properties :=
          congrArg (fun x => x.2.1) hshget
        have hname : (st.presets.getD i zeroPreset).name =
            (base.getD i zeroPreset).name :=
          congrArg (fun x => x.2.2.1) hshget
        have hnexteq :
            (if 1 < (st.clients.getD ci zeroClient).readNum then
              preset_foreach_find st.presets st.lastPresetId
                ((st.presets.getD i zeroPreset).id + 1) st.lastPresetId find_visible
            else none).map Prod.fst =
            (if 1 < m + 1 then
              preset_foreach_find base lastId
                ((base.getD i zeroPreset).id + 1) lastId find_visible
            else none).map Prod.fst := by
          rw [hrn]
          by_cases hm : 1 < m + 1
          · rw [if_pos hm, if_pos hm, hid, hlast]
            exact preset_foreach_find_visible_shape st.presets base hshape lastId _ lastId
          · rw [if_neg hm, if_neg hm]
        have hlasteq := congrArg Option.isNone hnexteq
        rw [hisnone, hisnone] at hlasteq
        unfold read_frames
        dsimp only
        rw [List.map_cons]
        show _ :: _ = _ :: _
        congr 1
        · unfold bt_has_cp_read_preset_rsp
          rw [hlasteq, hid, hprops, hname]
        · rw [show (if 1 < m + 1 then
              preset_foreach_find base lastId ((base.getD i zeroPreset).id + 1)
                lastId find_visible
            else none).map Prod.fst = ((if 1 < (st.clients.getD ci zeroClient).readNum then
              preset_foreach_find st.presets st.lastPresetId
                ((st.presets.getD i zeroPreset).id + 1) st.lastPresetId find_visible
            else none).map Prod.fst) from hnexteq.symm]
          refine ih f _ ci _ ?_ ?_ (by omega) ?_ ?_ ?_ ?_ ?_ ?_ ?_
          · show (preset_set_name_aware st.presets i ci).map presetShape =
              base.map presetShape
            rw [shape_preset_set_name_aware]
            exact hshape
          · exact hlast
          · simp only [control_point_tx_done, List.length_set]
            exact hci
          · simp only [control_point_tx_done]
            rw [clients_set_getD _ ci _ (by simp only [List.length_set]; exact hci)]
            rw [(cond_submit_fields _ _ 0).1]
            dsimp only
            rw [clients_set_getD st.clients ci _ hci]
            exact hconn
          · simp only [control_point_tx_done]
            rw [clients_set_getD _ ci _ (by simp only [List.length_set]; exact hci)]
            rw [(cond_submit_fields _ _ 0).2.1]
            dsimp only
            rw [clients_set_getD st.clients ci _ hci]
            exact hcd
          · simp only [control_point_tx_done]
            rw [clients_set_getD _ ci _ (by simp only [List.length_set]; exact hci)]
            rw [(cond_submit_fields _ _ 0).2.2.2.1, (cond_submit_fields _ _ 0).2.2.1]
            dsimp only
            rw [clients_set_getD st.clients ci _ hci]
            exact hsub
          · simp only [control_point_tx_done]
            rw [clients_set_getD _ ci _ (by simp only [List.length_set]; exact hci)]
            rw [(cond_submit_fields _ _ 0).2.2.2.2.1]
            dsimp only
            rw [clients_set_getD st.clients ci _ hci]
            dsimp only [preset_changed_clear]
            rw [hpend]
            exact Finset.erase_empty i
          · simp only [control_point_tx_done]
            rw [clients_set_getD _ ci _ (by simp only [List.length_set]; exact hci)]
            rw [(cond_submit_fields _ _ 0).2.2.2.2.2.1]
            dsimp only
            rw [clients_set_getD st.clients ci _ hci]
            rfl
          · simp only [control_point_tx_done]
            rw [clients_set_getD _ ci _ (by simp only [List.length_set]; exact hci)]
            rw [(cond_submit_fields _ _ 0).2.2.2.2.2.2]
            dsimp only
            rw [clients_set_getD st.clients ci _ hci]
            show (st.clients.getD ci zeroClient).readNum - 1 = m
            rw [hrn]
            omega


/-- C3: for every accepted READ_PRESET_REQ the transmit work emits one
READ_PRESET_RSP frame per work invocation, starting from the first visible
array entry with id >= start_id (the one captured at acceptance), walking
ids in strictly ascending order via the store's iterate helper, with
`is_last` set exactly on the final frame — i.e. when either the originally
requested count is exhausted or no further visible preset exists; and on the
{1 "Universal", 5 "Outdoor"} store a READ_PRESET_REQ(start_id=1,
num_presets=2) is accepted and drains to exactly two READ_PRESET_RSP frames
carrying ids 1 then 5 with `is_last` set only on the second. -/
theorem read_preset_rsp_stream :
    ((control_point_rx sampleStateTwoPresets 7 [1, 1, 2] 0).1 = Except.ok 3 ∧
      cp_tx_drain 0 10 ((control_point_rx sampleStateTwoPresets 7 [1, 1, 2] 0).2) =
        [Frame.read { isLast := false, id := 1, properties := 3, name := [85, 110] },
          Frame.read { isLast := true, id := 5, properties := 3, name := [79, 117] }]) ∧
    (∀ (st : ServerState) (conn ci : Nat) (data : List Nat) (c : Client)
        (q : Nat × Preset) (fuel : Nat),
      client_find st.clients conn = some ci →
      c = st.clients.getD ci zeroClient →
      data.getD 0 0 = OP_READ_PRESET_REQ → 3 ≤ data.length →
      c.indEnabled = true → c.attMtuValid = true →
      c.conn.isSome = true → c.connected = true →
      c.pending = ∅ →
      is_read_preset_rsp_pending c = false →
      0 < data.getD 2 0 →
      preset_foreach_find st.presets st.lastPresetId (data.getD 1 0)
        st.lastPresetId find_visible = some q →
      data.getD 2 0 ≤ fuel →
      (control_point_rx st conn data 0).1 = Except.ok data.length ∧
      find_visible q.2 = true ∧ data.getD 1 0 ≤ q.2.id ∧
      st.presets.getD q.1 zeroPreset = q.2 ∧
      cp_tx_drain ci fuel ((control_point_rx st conn data 0).2) =
        (read_frames st.presets st.lastPresetId (data.getD 2 0) (some q.1)).map
          Frame.read) ∧
    (∀ (presets : List Preset) (lastId n : Nat) (opt : Option Nat),
      List.Chain' (fun a b => a.id < b.id) (read_frames presets lastId n opt)) ∧
    (∀ (presets : List Preset) (lastId n : Nat) (opt : Option Nat),
      read_frames presets lastId n opt = [] ∨
      (read_frames presets lastId n opt).map (fun fr => fr.isLast) =
        List.replicate ((read_frames presets lastId n opt).length - 1) false ++
          [true]) ∧
    (∀ (presets : List Preset) (lastId n i : Nat), i < presets.length →
      find_visible (presets.getD i zeroPreset) = true →
      ∀ fr ∈ read_frames presets lastId n (some i),
        ∃ p, p ∈ presets ∧ find_visible p = true ∧ fr.id = p.id ∧
          fr.properties = p.properties ∧ fr.name = p.name) := by
  refine ⟨⟨rfl, rfl⟩, ?_, read_frames_chain, read_frames_isLast, read_frames_visible⟩
  intro st conn ci data c q fuel hfc hc hop hlen hind hmtu hconn hcd hpend hnr hnum
    hfind hfuel
  have h5 := (control_point_rx_read_req_cases st conn ci data c hfc hc hop hlen).2.2.2.2
    q hind hmtu hnr hnum hfind
  obtain ⟨hclt, _⟩ := client_find_go_some conn st.clients ci hfc
  obtain ⟨hqlt, hqgetd, hqvis, hqsle, _⟩ := preset_foreach_find_some st.presets
    st.lastPresetId (data.getD 1 0) st.lastPresetId q.1 q.2 hfind
  rw [h5]
  refine ⟨rfl, hqvis, hqsle, hqgetd, ?_⟩
  refine cp_tx_drain_read_frames st.presets st.lastPresetId (data.getD 2 0) fuel _ ci
    (some q.1) rfl rfl hfuel ?_ ?_ ?_ ?_ ?_ ?_ ?_
  · simp only [List.length_set]
    exact hclt
  · rw [clients_set_getD st.clients ci _ hclt, (submit_flag_fields _ _).1]
    exact hconn
  · rw [clients_set_getD st.clients ci _ hclt, (submit_flag_fields _ _).2.1]
    exact hcd
  · rw [clients_set_getD st.clients ci _ hclt, (submit_flag_fields _ _).2.2.2,
      (submit_flag_fields _ _).2.2.1]
    exact Or.inr hind
  · rw [clients_set_getD st.clients ci _ hclt, submit_pending_eq]
    exact hpend
  · rw [clients_set_getD st.clients ci _ hclt, submit_readPending_eq]
  · rw [clients_set_getD st.clients ci _ hclt, submit_readNum_eq]

/-- Witness for C3: the concrete accepted request on the {1,5} store drains
to the `read_frames` sequence. -/
theorem read_preset_rsp_stream_witness :
    cp_tx_drain 0 10 ((control_point_rx sampleStateTwoPresets 7 [1, 1, 2] 0).2) =
      (read_frames sampleStateTwoPresets.presets 5 2 (some 0)).map Frame.read := by
  have h := read_preset_rsp_stream.2.1 sampleStateTwoPresets 7 0 [1, 1, 2]
    (sampleStateTwoPresets.clients.getD 0 zeroClient) (0, presetUniversal) 10
    (by decide) rfl (by decide) (by decide) (by decide) (by decide) (by decide)
    (by decide) (by decide) (by decide) (by decide) (by decide) (by decide)
  exact h.2.2.2.2


end HAS
